import Mathlib

/-!
# Binary acquisition of kubekey: `pkg/binaries/kubernetes.go`

A shallow embedding of `K8sFilesDownloadHTTP` and
`KubernetesArtifactBinariesDownload`.  The two functions walk over a list of
`files.KubeBinary` descriptors; for each one they create the base directory,
look at the file on disk, check its SHA256, remove and download it again when
the check fails, and stop at the first fatal error.

The packages `files`, `util`, `cache`, `common` and the API constants are not
part of the translated file.  Their pure parts are parameters (`Consts`,
`Files`), their effects are the fields of `Sys`, functions on an arbitrary
state type `σ` standing for the machine the program runs on.  Every effectful
call of the source appends one `Event` to the trace of the `World`, in program
order, so that statements such as "the download is invoked once" can be read
off the trace.
-/

namespace Kubekey

/-! ## Data model -/

/-- The fields of `files.KubeBinary` that `kubernetes.go` reads.  The `getCmd`
closure of the Go struct is the `DownloadCommand` of the configuration; it is
the same for every descriptor of a call and is passed next to the descriptor. -/
structure KubeBinary where
  ID : String
  FileName : String
  Arch : String
  Version : String
  BaseDir : String
  deriving DecidableEq, Repr, Inhabited

/-- An error value returned by an external operation (a Go `error`). -/
abbrev Err := String

/-- The `func(path, url string) string` held in `Arg.DownloadCommand`. -/
abbrev DownloadCommand := String → String → String

/-- The three errors the two functions build, with the arguments of their
format strings and the error they wrap. -/
inductive BatchError where
  /-- Lines 47 and 120:
  `errors.Wrapf(errors.WithStack(err), "create file %s base dir failed", binary.FileName)`. -/
  | createBaseDir (fileName : String) (cause : Err)
  /-- Lines 65 and 135:
  `fmt.Errorf("Failed to download %s binary: %s error: %w ", binary.ID, binary.GetCmd(), err)`. -/
  | download (id : String) (cmd : String) (cause : Err)
  /-- Line 76: `errors.Wrap(err, "Failed to download helm2 binary")`. -/
  | helm2 (cause : Err)
  deriving DecidableEq, Repr

namespace BatchError

/-- The values substituted into the format string of the error. -/
def args : BatchError → List String
  | createBaseDir fileName _ => [fileName]
  | download id cmd _ => [id, cmd]
  | helm2 _ => []

/-- The wrapped error. -/
def cause : BatchError → Err
  | createBaseDir _ c => c
  | download _ _ c => c
  | helm2 c => c

/-- The text of the error: `Wrapf` and `Wrap` print `message: cause`. -/
def message : BatchError → String
  | createBaseDir fileName c => "create file " ++ fileName ++ " base dir failed: " ++ c
  | download id cmd c => "Failed to download " ++ id ++ " binary: " ++ cmd ++ " error: " ++ c ++ " "
  | helm2 c => "Failed to download helm2 binary: " ++ c

end BatchError

/-- Constants of `apis/kubekey/v1alpha2` and `pkg/common` used by the file. -/
structure Consts where
  DefaultEtcdVersion : String
  DefaultCniVersion : String
  DefaultHelmVersion : String
  DefaultDockerVersion : String
  DefaultCrictlVersion : String
  /-- Is `common.KubeBinaries`, the namespace of the cache key. -/
  KubeBinaries : String
  /-- Is `common.Docker`, the container-runtime type of docker. -/
  Docker : String

/-- The pure part of package `files`: the naming convention of
`NewKubeBinary` and the methods `Path` and `GetCmd`. -/
structure Files where
  /-- File name of (name, arch, version). -/
  fileName : String → String → String → String
  /-- Base directory of (prePath, name, arch, version). -/
  baseDir : String → String → String → String → String
  /-- Is `(*KubeBinary).Path`. -/
  Path : KubeBinary → String
  /-- Is `(*KubeBinary).GetCmd`, for a descriptor built with the given command. -/
  GetCmd : DownloadCommand → KubeBinary → String

/-- The effects the file relies on, over a machine state `σ`.  An operation
that can fail returns the error, if any, and the state it leaves. -/
structure Sys (σ : Type) where
  /-- Is `(*KubeBinary).CreateBaseDir`. -/
  CreateBaseDir : KubeBinary → σ → Option Err × σ
  /-- Is `util.IsExist`. -/
  IsExist : String → σ → Bool
  /-- Is `(*KubeBinary).SHA256Check`; it only reads. -/
  SHA256Check : KubeBinary → σ → Option Err
  /-- Is `(*KubeBinary).Download`, for a descriptor built with the given command. -/
  Download : DownloadCommand → KubeBinary → σ → Option Err × σ
  /-- Is `exec.Command("/bin/sh", "-c", cmd)` run to completion. -/
  sh : String → σ → Option Err × σ

/-- One effectful call of the source. -/
inductive Event where
  | createBaseDir (b : KubeBinary)
  | isExist (path : String)
  | sha256Check (b : KubeBinary)
  /-- The `rm -f` of lines 57 and 128. -/
  | rm (path : String)
  | download (b : KubeBinary)
  /-- The helm2 command of line 74. -/
  | legacy (cmd : String)
  /-- The `pipelineCache.Set` of line 81. -/
  | cacheSet (key : String)
  deriving DecidableEq, Repr

/-- Machine state and the calls made so far, oldest first. -/
structure World (σ : Type) where
  st : σ
  trace : List Event

/-- The Go map `map[string]*files.KubeBinary`. -/
abbrev BinariesMap := String → Option KubeBinary

/-- Assignment `m[k] = b`. -/
def BinariesMap.set (m : BinariesMap) (k : String) (b : KubeBinary) : BinariesMap :=
  fun k' => if k' = k then some b else m k'

/-- Result of `make(map[string]*files.KubeBinary)`. -/
def BinariesMap.empty : BinariesMap := fun _ => none

/-- Modelled from the spec: `cache.Cache` (package `pkg/core/cache`) is not in
the translated file.  "A keyed store: `set(key, value)` overwrites; `get(key)`
returns the stored mapping or absent." -/
abbrev Cache := String → Option BinariesMap

/-- Modelled from the spec: `(*Cache).Set`, which overwrites the entry of `key`. -/
def Cache.Set (c : Cache) (key : String) (value : BinariesMap) : Cache :=
  fun k => if k = key then some value else c k

/-- Modelled from the spec: `files.NewKubeBinary` is not in the translated
file.  The descriptor records the id, architecture and version it is given;
its file name and base directory follow the naming convention of `Files`. -/
def NewKubeBinary (F : Files) (name arch version prePath : String) : KubeBinary :=
  { ID := name
    FileName := F.fileName name arch version
    Arch := arch
    Version := version
    BaseDir := F.baseDir prePath name arch version }

/-- The part of `common.KubeConf` the file reads. -/
structure KubeConf where
  /-- Is `kubeConf.Arg.DownloadCommand`. -/
  DownloadCommand : DownloadCommand
  /-- Is `kubeConf.Cluster.KubeSphere.Version`. -/
  KubeSphereVersion : String

/-- One entry of `Components.ContainerRuntimes`. -/
structure ContainerRuntime where
  Type_ : String
  Version : String
  deriving DecidableEq, Repr

/-- The part of `common.ArtifactManifest` the file reads. -/
structure ArtifactManifest where
  /-- Is `manifest.Arg.DownloadCommand`. -/
  DownloadCommand : DownloadCommand
  ETCDVersion : String
  CNIVersion : String
  HelmVersion : String
  CrictlVersion : String
  ContainerRuntimes : List ContainerRuntime

/-! ## The loop body -/

section Engine

variable {σ : Type}

/-- Lines 64-66 and 134-136: download, and wrap the error of a failure. -/
def downloadStep (F : Files) (S : Sys σ) (getCmd : DownloadCommand) (b : KubeBinary)
    (w : World σ) : Option BatchError × World σ :=
  match S.Download getCmd b w.st with
  | (some err, s) =>
      (some (BatchError.download b.ID (F.GetCmd getCmd b) err), ⟨s, w.trace ++ [Event.download b]⟩)
  | (none, s) => (none, ⟨s, w.trace ++ [Event.download b]⟩)

/-- Lines 53-66 and 125-136: keep a file that exists and passes the check
(`continue`), remove one that fails it, and download what is missing. -/
def fetchStep (F : Files) (S : Sys σ) (getCmd : DownloadCommand) (b : KubeBinary)
    (w : World σ) : Option BatchError × World σ :=
  if S.IsExist (F.Path b) w.st then
    match S.SHA256Check b w.st with
    | some _ =>
        let p := F.Path b
        downloadStep F S getCmd b
          ⟨(S.sh ("rm -f " ++ p) w.st).2,
            w.trace ++ [Event.isExist (F.Path b), Event.sha256Check b, Event.rm p]⟩
    | none => (none, ⟨w.st, w.trace ++ [Event.isExist (F.Path b), Event.sha256Check b]⟩)
  else
    downloadStep F S getCmd b ⟨w.st, w.trace ++ [Event.isExist (F.Path b)]⟩

/-- Lines 118-137, the loop of `KubernetesArtifactBinariesDownload`. -/
def artifactLoop (F : Files) (S : Sys σ) (getCmd : DownloadCommand) :
    List KubeBinary → World σ → Option BatchError × World σ
  | [], w => (none, w)
  | b :: bs, w =>
      match S.CreateBaseDir b w.st with
      | (some err, s) =>
          (some (BatchError.createBaseDir b.FileName err), ⟨s, w.trace ++ [Event.createBaseDir b]⟩)
      | (none, s) =>
          match fetchStep F S getCmd b ⟨s, w.trace ++ [Event.createBaseDir b]⟩ with
          | (some e, w') => (some e, w')
          | (none, w') => artifactLoop F S getCmd bs w'

/-- Lines 45-67, the loop of `K8sFilesDownloadHTTP`; it also fills
`binariesMap` (line 52). -/
def k8sLoop (F : Files) (S : Sys σ) (getCmd : DownloadCommand) :
    List KubeBinary → BinariesMap → World σ → Option BatchError × BinariesMap × World σ
  | [], m, w => (none, m, w)
  | b :: bs, m, w =>
      match S.CreateBaseDir b w.st with
      | (some err, s) =>
          (some (BatchError.createBaseDir b.FileName err), m,
            ⟨s, w.trace ++ [Event.createBaseDir b]⟩)
      | (none, s) =>
          let m' := m.set b.ID b
          match fetchStep F S getCmd b ⟨s, w.trace ++ [Event.createBaseDir b]⟩ with
          | (some e, w') => (some e, m', w')
          | (none, w') => k8sLoop F S getCmd bs m' w'

/-! ## `K8sFilesDownloadHTTP` -/

/-- Lines 34-43: the eight descriptors, in the order of `binaries`. -/
def k8sBinaries (C : Consts) (F : Files) (path version arch : String) : List KubeBinary :=
  let etcd := NewKubeBinary F "etcd" arch C.DefaultEtcdVersion path
  let kubeadm := NewKubeBinary F "kubeadm" arch version path
  let kubelet := NewKubeBinary F "kubelet" arch version path
  let kubectl := NewKubeBinary F "kubectl" arch version path
  let kubecni := NewKubeBinary F "kubecni" arch C.DefaultCniVersion path
  let helm := NewKubeBinary F "helm" arch C.DefaultHelmVersion path
  let docker := NewKubeBinary F "docker" arch C.DefaultDockerVersion path
  let crictl := NewKubeBinary F "crictl" arch C.DefaultCrictlVersion path
  [kubeadm, kubelet, kubectl, helm, kubecni, docker, crictl, etcd]

/-- Path tested on line 71: `fmt.Sprintf("%s/helm2", helm.BaseDir)`. -/
def helm2Path (C : Consts) (F : Files) (path arch : String) : String :=
  (NewKubeBinary F "helm" arch C.DefaultHelmVersion path).BaseDir ++ "/helm2"

/-- Command built on lines 72-73. -/
def helm2Cmd (C : Consts) (F : Files) (getCmd : DownloadCommand) (path arch : String) : String :=
  getCmd (helm2Path C F path arch)
    ("https://kubernetes-helm.pek3b.qingstor.com/linux-"
      ++ (NewKubeBinary F "helm" arch C.DefaultHelmVersion path).Arch ++ "/" ++ "v2.16.9" ++ "/helm")

/-- Lines 69-79: the extra helm2 download of KubeSphere v2.1.1. -/
def legacyStep (C : Consts) (F : Files) (S : Sys σ) (kubeConf : KubeConf) (path arch : String)
    (w : World σ) : Option BatchError × World σ :=
  if kubeConf.KubeSphereVersion = "v2.1.1" then
    if S.IsExist (helm2Path C F path arch) w.st = false then
      let cmd := helm2Cmd C F kubeConf.DownloadCommand path arch
      match S.sh cmd w.st with
      | (some err, s) =>
          (some (BatchError.helm2 err),
            ⟨s, w.trace ++ [Event.isExist (helm2Path C F path arch), Event.legacy cmd]⟩)
      | (none, s) =>
          (none, ⟨s, w.trace ++ [Event.isExist (helm2Path C F path arch), Event.legacy cmd]⟩)
    else (none, ⟨w.st, w.trace ++ [Event.isExist (helm2Path C F path arch)]⟩)
  else (none, w)

/-- Key of line 81: `common.KubeBinaries+"-"+arch`. -/
def cacheKey (C : Consts) (arch : String) : String := C.KubeBinaries ++ "-" ++ arch

/-- Lines 69-82, applied to the outcome of the loop: an error of the loop has
already been returned (lines 47 and 65); otherwise the helm2 step runs and,
when it succeeds, the map is written to the cache. -/
def k8sFinish (C : Consts) (F : Files) (S : Sys σ) (kubeConf : KubeConf) (path arch : String)
    (pipelineCache : Cache) :
    Option BatchError × BinariesMap × World σ → Option BatchError × Cache × World σ
  | (some e, _, w1) => (some e, pipelineCache, w1)
  | (none, binariesMap, w1) =>
      match legacyStep C F S kubeConf path arch w1 with
      | (some e, w2) => (some e, pipelineCache, w2)
      | (none, w2) =>
          (none, pipelineCache.Set (cacheKey C arch) binariesMap,
            ⟨w2.st, w2.trace ++ [Event.cacheSet (cacheKey C arch)]⟩)

/-- Lines 32-83.  Returns the error (`none` for `nil`), the cache and the world
the call leaves. -/
def K8sFilesDownloadHTTP (C : Consts) (F : Files) (S : Sys σ) (kubeConf : KubeConf)
    (path version arch : String) (pipelineCache : Cache) (w : World σ) :
    Option BatchError × Cache × World σ :=
  k8sFinish C F S kubeConf path arch pipelineCache
    (k8sLoop F S kubeConf.DownloadCommand (k8sBinaries C F path version arch)
      BinariesMap.empty w)

/-! ## `KubernetesArtifactBinariesDownload` -/

/-- Lines 100-105: the docker version a container runtime asks for. -/
def dockerVersionOf (C : Consts) (c : ContainerRuntime) : String :=
  if c.Type_ = C.Docker then c.Version else C.DefaultDockerVersion

/-- Lines 97-111: the loop over the container runtimes, with `dockerArr` and
the keys of `dockerVersionMap` as its state. -/
def dockerLoop (C : Consts) (F : Files) (arch path : String) :
    List ContainerRuntime → List KubeBinary × List String → List KubeBinary × List String
  | [], acc => acc
  | c :: cs, (dockerArr, dockerVersionMap) =>
      let dockerVersion := dockerVersionOf C c
      if dockerVersion ∈ dockerVersionMap then
        dockerLoop C F arch path cs (dockerArr, dockerVersionMap)
      else
        dockerLoop C F arch path cs
          (dockerArr ++ [NewKubeBinary F "docker" arch dockerVersion path],
            dockerVersion :: dockerVersionMap)

/-- The slice `dockerArr` after the loop of lines 99-111. -/
def dockerArr (C : Consts) (F : Files) (manifest : ArtifactManifest) (path arch : String) :
    List KubeBinary :=
  (dockerLoop C F arch path manifest.ContainerRuntimes ([], [])).1

/-- Lines 88-116: the slice `binaries` the loop of line 118 ranges over. -/
def artifactBinaries (C : Consts) (F : Files) (manifest : ArtifactManifest)
    (path arch k8sVersion : String) : List KubeBinary :=
  let etcd := NewKubeBinary F "etcd" arch manifest.ETCDVersion path
  let kubeadm := NewKubeBinary F "kubeadm" arch k8sVersion path
  let kubelet := NewKubeBinary F "kubelet" arch k8sVersion path
  let kubectl := NewKubeBinary F "kubectl" arch k8sVersion path
  let kubecni := NewKubeBinary F "kubecni" arch manifest.CNIVersion path
  let helm := NewKubeBinary F "helm" arch manifest.HelmVersion path
  let crictl := NewKubeBinary F "crictl" arch manifest.CrictlVersion path
  let binaries := [kubeadm, kubelet, kubectl, helm, kubecni, etcd]
  let binaries := binaries ++ dockerArr C F manifest path arch
  if manifest.CrictlVersion ≠ "" then binaries ++ [crictl] else binaries

/-- Lines 85-140.  Returns the error (`none` for `nil`) and the world the call
leaves. -/
def KubernetesArtifactBinariesDownload (C : Consts) (F : Files) (S : Sys σ)
    (manifest : ArtifactManifest) (path arch k8sVersion : String) (w : World σ) :
    Option BatchError × World σ :=
  artifactLoop F S manifest.DownloadCommand (artifactBinaries C F manifest path arch k8sVersion) w

end Engine

/-! ## Notions used to state the properties -/

section Notions

variable {σ : Type}

/-- The map after line 52 has run for each descriptor of `bs`, in order. -/
def fillMap (bs : List KubeBinary) (m : BinariesMap) : BinariesMap :=
  bs.foldl (fun acc b => acc.set b.ID b) m

/-- The descriptors the download was invoked for, in call order. -/
def downloads : List Event → List KubeBinary
  | [] => []
  | Event.download b :: t => b :: downloads t
  | _ :: t => downloads t

/-- The paths an `rm -f` was issued for, in call order. -/
def removals : List Event → List String
  | [] => []
  | Event.rm p :: t => p :: removals t
  | _ :: t => removals t

/-- The helm2 commands that were run, in call order. -/
def legacyRuns : List Event → List String
  | [] => []
  | Event.legacy c :: t => c :: legacyRuns t
  | _ :: t => legacyRuns t

/-- The keys the cache was written under, in call order. -/
def cacheWrites : List Event → List String
  | [] => []
  | Event.cacheSet k :: t => k :: cacheWrites t
  | _ :: t => cacheWrites t

/-- The descriptors whose base directory creation was attempted, in call order. -/
def processed : List Event → List KubeBinary
  | [] => []
  | Event.createBaseDir b :: t => b :: processed t
  | _ :: t => processed t

/-- The events the loop body adds for one descriptor whose base directory was
created, by what it finds on disk. -/
def fetchEvents (F : Files) (S : Sys σ) (b : KubeBinary) (s : σ) : List Event :=
  if S.IsExist (F.Path b) s then
    match S.SHA256Check b s with
    | some _ => [Event.isExist (F.Path b), Event.sha256Check b, Event.rm (F.Path b), Event.download b]
    | none => [Event.isExist (F.Path b), Event.sha256Check b]
  else [Event.isExist (F.Path b), Event.download b]

/-- Keeps the first occurrence of every element, in order: the deduplication
the spec asks of the Deduplicator ("emit a descriptor the first time its
identity is observed; drop subsequent duplicates"). -/
def firstSeen : List String → List String
  | [] => []
  | v :: vs => v :: (firstSeen vs).filter (fun u => decide (u ≠ v))

/-- The file of `b` is on disk and passes the integrity check. -/
def Valid (F : Files) (S : Sys σ) (b : KubeBinary) (s : σ) : Prop :=
  S.IsExist (F.Path b) s = true ∧ S.SHA256Check b s = none

/-- Creating the base directory of `b` succeeds in state `s`. -/
def DirReady (S : Sys σ) (b : KubeBinary) (s : σ) : Prop :=
  (S.CreateBaseDir b s).1 = none

/-- Every descriptor of `done` has its file in place and its base directory
creatable. -/
def Settled (F : Files) (S : Sys σ) (done : List KubeBinary) (s : σ) : Prop :=
  ∀ b ∈ done, Valid F S b s ∧ DirReady S b s

/-- A stable download executor on a disk that persists, for the descriptors
`bs`: a successful download leaves a file that passes the check, a directory
that was created can be created again, and the operations the loop performs
for one descriptor leave the files of the other descriptors and all the
directories as they are. -/
structure Stable (F : Files) (S : Sys σ) (g : DownloadCommand) (bs : List KubeBinary) :
    Prop where
  download_valid : ∀ b ∈ bs, ∀ s, (S.Download g b s).1 = none → Valid F S b (S.Download g b s).2
  dir_ready : ∀ b ∈ bs, ∀ s, (S.CreateBaseDir b s).1 = none →
    DirReady S b (S.CreateBaseDir b s).2
  mkdir_valid : ∀ b ∈ bs, ∀ b' ∈ bs, ∀ s, Valid F S b s → Valid F S b (S.CreateBaseDir b' s).2
  rm_valid : ∀ b ∈ bs, ∀ b' ∈ bs, b ≠ b' → ∀ s,
    Valid F S b s → Valid F S b (S.sh ("rm -f " ++ F.Path b') s).2
  download_frame : ∀ b ∈ bs, ∀ b' ∈ bs, b ≠ b' → ∀ s,
    Valid F S b s → Valid F S b (S.Download g b' s).2
  mkdir_dir : ∀ b ∈ bs, ∀ b' ∈ bs, ∀ s, DirReady S b s → DirReady S b (S.CreateBaseDir b' s).2
  rm_dir : ∀ b ∈ bs, ∀ b' ∈ bs, ∀ s,
    DirReady S b s → DirReady S b (S.sh ("rm -f " ++ F.Path b') s).2
  download_dir : ∀ b ∈ bs, ∀ b' ∈ bs, ∀ s, DirReady S b s → DirReady S b (S.Download g b' s).2

/-- The helm2 command on a disk that persists: when it succeeds the file
`helm2` exists, it leaves the files and directories of the descriptors `bs` as
they are, and creating a base directory does not remove `helm2`. -/
structure LegacyStable (F : Files) (S : Sys σ) (bs : List KubeBinary) (helm2 cmd : String) :
    Prop where
  run_exists : ∀ s, (S.sh cmd s).1 = none → S.IsExist helm2 (S.sh cmd s).2 = true
  run_valid : ∀ b ∈ bs, ∀ s, Valid F S b s → Valid F S b (S.sh cmd s).2
  run_dir : ∀ b ∈ bs, ∀ s, DirReady S b s → DirReady S b (S.sh cmd s).2
  mkdir_exists : ∀ b ∈ bs, ∀ s, S.IsExist helm2 s = true →
    S.IsExist helm2 (S.CreateBaseDir b s).2 = true

/-- The error `e` shows the id and the version of `b` among the values it was
formatted with, and wraps `cause`. -/
def Surfaces (e : BatchError) (b : KubeBinary) (cause : Err) : Prop :=
  b.ID ∈ e.args ∧ b.Version ∈ e.args ∧ e.cause = cause

/-- Modelled from the spec: `(*KubeBinary).SHA256Check` (package `pkg/files`)
is not in the translated file.  "Computes a content checksum of the local file
at `resolvedPath()`; compares against a reference checksum keyed by the
descriptor's identity, sourced from a static reference table; returns success
if equal, otherwise `IntegrityError`."  For an identity without a reference
entry "the integrity check is skipped for that artifact" (the non-fatal
`UnknownIdentityWarning`), so no error is returned. -/
def SHA256Check (F : Files) (FileSha256 : String → String → String → Option String)
    (sha256sum : String → σ → Except Err String) (b : KubeBinary) (s : σ) : Option Err :=
  match FileSha256 b.ID b.Arch b.Version with
  | none => none
  | some reference =>
      match sha256sum (F.Path b) s with
      | Except.error err => some err
      | Except.ok output =>
          if output = reference then none
          else some ("SHA256 no match. " ++ reference ++ " not equal " ++ output)

/-- A system whose integrity check is the one modelled from the spec. -/
def Sys.withCheck (S : Sys σ) (F : Files) (FileSha256 : String → String → String → Option String)
    (sha256sum : String → σ → Except Err String) : Sys σ :=
  { S with SHA256Check := Kubekey.SHA256Check F FileSha256 sha256sum }

end Notions

/-! ## A test double of the machine

Used to run the two functions on concrete inputs. -/

/-- A disk: what is at a path, `some true` for an intact file, `some false`
for a damaged one, `none` for nothing. -/
abbrev Disk := String → Option Bool

/-- The disk with `v` at path `p`. -/
def Disk.write (d : Disk) (p : String) (v : Option Bool) : Disk :=
  fun q => if q = p then v else d q

/-- The behaviour of the test double. -/
structure Fake where
  /-- Base directories that cannot be created. -/
  denied : List String
  /-- Ids whose download fails. -/
  offline : List String
  /-- Files `rm -f` is able to remove. -/
  removable : List String
  /-- Commands the shell knows besides `rm`, with the file each one writes. -/
  commands : List (String × String)

/-- The shell of the test double. -/
def Fake.sh (k : Fake) (cmd : String) (d : Disk) : Option Err × Disk :=
  match k.removable.find? (fun p => decide (cmd = "rm -f " ++ p)) with
  | some p => (none, d.write p none)
  | none =>
      match k.commands.find? (fun c => decide (cmd = c.1)) with
      | some c => (none, d.write c.2 (some true))
      | none => (some "exit status 127", d)

/-- The test double as a system. -/
def Fake.sys (F : Files) (k : Fake) : Sys Disk :=
  { CreateBaseDir := fun b d =>
      if b.BaseDir ∈ k.denied then (some "permission denied", d) else (none, d)
    IsExist := fun p d => (d p).isSome
    SHA256Check := fun b d =>
      if d (F.Path b) = some true then none else some "SHA256 no match"
    Download := fun _ b d =>
      if b.ID ∈ k.offline then (some "exit status 1", d)
      else (none, d.write (F.Path b) (some true))
    sh := k.sh }

/-- A naming convention in the style of kubekey: `<prePath>/<id>/<version>/<arch>/<id>`. -/
def demoFiles : Files :=
  { fileName := fun name _ _ => name
    baseDir := fun prePath name arch version => prePath ++ "/" ++ name ++ "/" ++ version ++ "/" ++ arch
    Path := fun b => b.BaseDir ++ "/" ++ b.FileName
    GetCmd := fun g b => g (b.BaseDir ++ "/" ++ b.FileName) ("https://dl/" ++ b.ID) }

/-- Constants for the examples. -/
def demoConsts : Consts :=
  { DefaultEtcdVersion := "v3.4.13"
    DefaultCniVersion := "v0.9.1"
    DefaultHelmVersion := "v3.6.3"
    DefaultDockerVersion := "20.10.8"
    DefaultCrictlVersion := "v1.22.0"
    KubeBinaries := "KubeBinaries"
    Docker := "docker" }

/-- A download command in the style of `curl`. -/
def demoCmd : DownloadCommand := fun path url => "curl -o " ++ path ++ " " ++ url

/-- A configuration for the examples. -/
def demoConf : KubeConf := { DownloadCommand := demoCmd, KubeSphereVersion := "v3.1.1" }

/-- A manifest whose container runtimes ask for docker 20.10, 20.10 and 19.03. -/
def demoManifest : ArtifactManifest :=
  { DownloadCommand := demoCmd
    ETCDVersion := "v3.4.13"
    CNIVersion := "v0.9.1"
    HelmVersion := "v3.6.3"
    CrictlVersion := "v1.22.0"
    ContainerRuntimes := [⟨"docker", "20.10"⟩, ⟨"docker", "20.10"⟩, ⟨"docker", "19.03"⟩] }

/-- A machine on which every operation succeeds. -/
def demoFake : Fake := { denied := [], offline := [], removable := [], commands := [] }

/-- The empty disk. -/
def emptyDisk : Disk := fun _ => none

/-- A world with an empty trace. -/
def fresh {σ : Type} (s : σ) : World σ := ⟨s, []⟩

/-- A cache that already holds an entry for amd64. -/
def oldCache : Cache := fun k => if k = "KubeBinaries-amd64" then some BinariesMap.empty else none

/-- A machine on which the download of kubectl fails. -/
def offlineFake : Fake := { denied := [], offline := ["kubectl"], removable := [], commands := [] }

/-- A machine on which the base directory of kubeadm cannot be created. -/
def deniedFake : Fake :=
  { denied := ["/kk/kubeadm/v1.21.5/amd64", "/kk/kubeadm/v1.22.1/amd64"]
    offline := [], removable := [], commands := [] }

/-- A disk whose helm file is damaged. -/
def damagedDisk : Disk := emptyDisk.write "/kk/helm/v3.6.3/amd64/helm" (some false)

/-- A configuration of KubeSphere v2.1.1. -/
def legacyConf : KubeConf := { DownloadCommand := demoCmd, KubeSphereVersion := "v2.1.1" }

/-- A configuration whose download command does not depend on its arguments. -/
def fixedConf : KubeConf := { DownloadCommand := fun _ _ => "fetch", KubeSphereVersion := "v3.1.1" }

/-- A machine that can remove the helm file and run the helm2 command. -/
def legacyFake : Fake :=
  { denied := [], offline := []
    removable := ["/kk/helm/v3.6.3/amd64/helm"]
    commands :=
      [("curl -o /kk/helm/v3.6.3/amd64/helm2 "
          ++ "https://kubernetes-helm.pek3b.qingstor.com/linux-amd64/v2.16.9/helm",
        "/kk/helm/v3.6.3/amd64/helm2")] }

/-- The helm descriptor of the examples. -/
def demoHelm : KubeBinary := NewKubeBinary demoFiles "helm" "amd64" "v3.6.3" "/kk"

/-- The kubectl descriptor of the examples. -/
def demoKubectl : KubeBinary := NewKubeBinary demoFiles "kubectl" "amd64" "v1.21.5" "/kk"

/-- The first two descriptors of both batches in the examples. -/
def demoTwo : List KubeBinary :=
  [NewKubeBinary demoFiles "kubeadm" "amd64" "v1.21.5" "/kk",
    NewKubeBinary demoFiles "kubelet" "amd64" "v1.21.5" "/kk"]

/-- The first three descriptors of both batches in the examples. -/
def demoPre : List KubeBinary := demoTwo ++ [demoKubectl]

/-- The descriptors after helm in the batch of `K8sFilesDownloadHTTP`. -/
def demoPostK8s : List KubeBinary :=
  [NewKubeBinary demoFiles "kubecni" "amd64" "v0.9.1" "/kk",
    NewKubeBinary demoFiles "docker" "amd64" "20.10.8" "/kk",
    NewKubeBinary demoFiles "crictl" "amd64" "v1.22.0" "/kk",
    NewKubeBinary demoFiles "etcd" "amd64" "v3.4.13" "/kk"]

/-- The descriptors after helm in the batch of `KubernetesArtifactBinariesDownload`. -/
def demoPostArtifact : List KubeBinary :=
  [NewKubeBinary demoFiles "kubecni" "amd64" "v0.9.1" "/kk",
    NewKubeBinary demoFiles "etcd" "amd64" "v3.4.13" "/kk",
    NewKubeBinary demoFiles "docker" "amd64" "20.10" "/kk",
    NewKubeBinary demoFiles "docker" "amd64" "19.03" "/kk",
    NewKubeBinary demoFiles "crictl" "amd64" "v1.22.0" "/kk"]

/-- A reference table with no entry for helm. -/
def demoTable : String → String → String → Option String :=
  fun id _ _ => if id = "helm" then none else some "abc"

/-- A checksum program for the test double. -/
def demoSum : String → Disk → Except Err String :=
  fun p d => if (d p).isSome then Except.ok "abc" else Except.error "no such file"

/-- A machine that can remove the helm file but on which the download of helm
fails. -/
def brokenFake : Fake :=
  { denied := [], offline := ["helm"]
    removable := ["/kk/helm/v3.6.3/amd64/helm"], commands := [] }

/-- The kubeadm descriptor of the examples. -/
def demoKubeadm : KubeBinary := NewKubeBinary demoFiles "kubeadm" "amd64" "v1.21.5" "/kk"

/-- The kubelet descriptor of the examples. -/
def demoKubelet : KubeBinary := NewKubeBinary demoFiles "kubelet" "amd64" "v1.21.5" "/kk"

/-- The error of the failed download of helm. -/
def helmError : BatchError :=
  BatchError.download "helm" "curl -o /kk/helm/v3.6.3/amd64/helm https://dl/helm" "exit status 1"

/-- The error of the failed download of kubectl. -/
def kubectlError : BatchError :=
  BatchError.download "kubectl" "curl -o /kk/kubectl/v1.21.5/amd64/kubectl https://dl/kubectl"
    "exit status 1"

/-! ## Basic facts about the loops -/

section Loops

variable {σ : Type}

/-- The downloads of a trace in two parts. -/
theorem downloads_append (t u : List Event) : downloads (t ++ u) = downloads t ++ downloads u := by
  induction t with
  | nil => rfl
  | cons e t ih => cases e <;> simp [downloads, ih]

/-- The removals of a trace in two parts. -/
theorem removals_append (t u : List Event) : removals (t ++ u) = removals t ++ removals u := by
  induction t with
  | nil => rfl
  | cons e t ih => cases e <;> simp [removals, ih]

/-- The helm2 runs of a trace in two parts. -/
theorem legacyRuns_append (t u : List Event) :
    legacyRuns (t ++ u) = legacyRuns t ++ legacyRuns u := by
  induction t with
  | nil => rfl
  | cons e t ih => cases e <;> simp [legacyRuns, ih]

/-- The cache writes of a trace in two parts. -/
theorem cacheWrites_append (t u : List Event) :
    cacheWrites (t ++ u) = cacheWrites t ++ cacheWrites u := by
  induction t with
  | nil => rfl
  | cons e t ih => cases e <;> simp [cacheWrites, ih]

/-- The processed descriptors of a trace in two parts. -/
theorem processed_append (t u : List Event) : processed (t ++ u) = processed t ++ processed u := by
  induction t with
  | nil => rfl
  | cons e t ih => cases e <;> simp [processed, ih]

/-- The download step in one piece: the error is the wrapped error of
`Download`, the trace grows by one event. -/
theorem downloadStep_eq (F : Files) (S : Sys σ) (g : DownloadCommand) (b : KubeBinary)
    (w : World σ) :
    downloadStep F S g b w
      = ((S.Download g b w.st).1.map (BatchError.download b.ID (F.GetCmd g b)),
          ⟨(S.Download g b w.st).2, w.trace ++ [Event.download b]⟩) := by
  unfold downloadStep
  rcases h : S.Download g b w.st with ⟨_ | err, s⟩ <;> simp

/-- The loop body adds the events of `fetchEvents`. -/
theorem fetchStep_trace (F : Files) (S : Sys σ) (g : DownloadCommand) (b : KubeBinary)
    (w : World σ) :
    (fetchStep F S g b w).2.trace = w.trace ++ fetchEvents F S b w.st := by
  unfold fetchStep fetchEvents
  by_cases hx : S.IsExist (F.Path b) w.st = true
  · rcases hc : S.SHA256Check b w.st with _ | e <;> simp [hx, hc, downloadStep_eq]
  · simp [hx, downloadStep_eq]

/-- The loop writes no cache entry and runs no helm2 command. -/
theorem artifactLoop_quiet (F : Files) (S : Sys σ) (g : DownloadCommand) (bs : List KubeBinary)
    (w : World σ) :
    cacheWrites (artifactLoop F S g bs w).2.trace = cacheWrites w.trace
      ∧ legacyRuns (artifactLoop F S g bs w).2.trace = legacyRuns w.trace := by
  induction bs generalizing w with
  | nil => simp [artifactLoop]
  | cons b bs ih =>
    simp only [artifactLoop]
    rcases hd : S.CreateBaseDir b w.st with ⟨_ | err, s⟩
    · simp only
      have ht := fetchStep_trace F S g b ⟨s, w.trace ++ [Event.createBaseDir b]⟩
      rcases hf : fetchStep F S g b ⟨s, w.trace ++ [Event.createBaseDir b]⟩ with ⟨_ | e, w'⟩
      · rw [hf] at ht
        simp only at ht
        have hq : cacheWrites w'.trace = cacheWrites w.trace
            ∧ legacyRuns w'.trace = legacyRuns w.trace := by
          rw [ht]
          unfold fetchEvents
          split_ifs
          · split <;> simp [cacheWrites_append, legacyRuns_append, cacheWrites, legacyRuns]
          · simp [cacheWrites_append, legacyRuns_append, cacheWrites, legacyRuns]
        simp only
        rw [(ih w').1, (ih w').2]
        exact hq
      · rw [hf] at ht
        simp only at ht ⊢
        rw [ht]
        unfold fetchEvents
        split_ifs
        · split <;> simp [cacheWrites_append, legacyRuns_append, cacheWrites, legacyRuns]
        · simp [cacheWrites_append, legacyRuns_append, cacheWrites, legacyRuns]
    · simp [cacheWrites_append, legacyRuns_append, cacheWrites, legacyRuns]

/-- The two loops make the same calls and fail alike; the map of the first
holds the descriptors whose base directory was created. -/
theorem k8sLoop_eq (F : Files) (S : Sys σ) (g : DownloadCommand) (bs : List KubeBinary)
    (m : BinariesMap) (w : World σ) :
    (k8sLoop F S g bs m w).1 = (artifactLoop F S g bs w).1
      ∧ (k8sLoop F S g bs m w).2.2 = (artifactLoop F S g bs w).2
      ∧ ((artifactLoop F S g bs w).1 = none → (k8sLoop F S g bs m w).2.1 = fillMap bs m) := by
  induction bs generalizing m w with
  | nil => simp [k8sLoop, artifactLoop, fillMap]
  | cons b bs ih =>
    simp only [k8sLoop, artifactLoop]
    rcases hd : S.CreateBaseDir b w.st with ⟨_ | err, s⟩
    · simp only
      rcases hf : fetchStep F S g b ⟨s, w.trace ++ [Event.createBaseDir b]⟩ with ⟨_ | e, w'⟩
      · simpa [fillMap] using ih (m.set b.ID b) w'
      · simp
    · simp

/-- Running a batch is running its front part and then, unless that failed,
the rest. -/
theorem artifactLoop_append (F : Files) (S : Sys σ) (g : DownloadCommand)
    (pre post : List KubeBinary) (w : World σ) :
    artifactLoop F S g (pre ++ post) w
      = match artifactLoop F S g pre w with
        | (some e, w') => (some e, w')
        | (none, w') => artifactLoop F S g post w' := by
  induction pre generalizing w with
  | nil => simp [artifactLoop]
  | cons b bs ih =>
    simp only [List.cons_append, artifactLoop]
    rcases hd : S.CreateBaseDir b w.st with ⟨_ | err, s⟩
    · simp only
      rcases hf : fetchStep F S g b ⟨s, w.trace ++ [Event.createBaseDir b]⟩ with ⟨_ | e, w'⟩
      · simpa using ih w'
      · simp
    · simp

/-- The loop of `K8sFilesDownloadHTTP` on a batch in two parts. -/
theorem k8sLoop_append (F : Files) (S : Sys σ) (g : DownloadCommand)
    (pre post : List KubeBinary) (m : BinariesMap) (w : World σ) :
    k8sLoop F S g (pre ++ post) m w
      = match k8sLoop F S g pre m w with
        | (some e, m', w') => (some e, m', w')
        | (none, m', w') => k8sLoop F S g post m' w' := by
  induction pre generalizing m w with
  | nil => simp [k8sLoop]
  | cons b bs ih =>
    simp only [List.cons_append, k8sLoop]
    rcases hd : S.CreateBaseDir b w.st with ⟨_ | err, s⟩
    · simp only
      rcases hf : fetchStep F S g b ⟨s, w.trace ++ [Event.createBaseDir b]⟩ with ⟨_ | e, w'⟩
      · simpa using ih (m.set b.ID b) w'
      · simp
    · simp

/-- What the helm2 step adds to the trace. -/
theorem legacyStep_trace (C : Consts) (F : Files) (S : Sys σ) (kubeConf : KubeConf)
    (path arch : String) (w : World σ) :
    cacheWrites (legacyStep C F S kubeConf path arch w).2.trace = cacheWrites w.trace
      ∧ legacyRuns (legacyStep C F S kubeConf path arch w).2.trace
          = legacyRuns w.trace
            ++ (if kubeConf.KubeSphereVersion = "v2.1.1"
                  ∧ S.IsExist (helm2Path C F path arch) w.st = false
                then [helm2Cmd C F kubeConf.DownloadCommand path arch] else []) := by
  unfold legacyStep
  by_cases hv : kubeConf.KubeSphereVersion = "v2.1.1"
  · by_cases hx : S.IsExist (helm2Path C F path arch) w.st = false
    · rcases hs : S.sh (helm2Cmd C F kubeConf.DownloadCommand path arch) w.st with ⟨_ | err, s⟩ <;>
        simp [hv, hx, hs, cacheWrites_append, legacyRuns_append, cacheWrites, legacyRuns]
    · simp [hv, hx, cacheWrites_append, legacyRuns_append, cacheWrites, legacyRuns]
  · simp [hv]

/-- The helm2 step invokes no download of a descriptor and removes nothing. -/
theorem legacyStep_downloads (C : Consts) (F : Files) (S : Sys σ) (kubeConf : KubeConf)
    (path arch : String) (w : World σ) :
    downloads (legacyStep C F S kubeConf path arch w).2.trace = downloads w.trace
      ∧ removals (legacyStep C F S kubeConf path arch w).2.trace = removals w.trace := by
  unfold legacyStep
  by_cases hv : kubeConf.KubeSphereVersion = "v2.1.1"
  · by_cases hx : S.IsExist (helm2Path C F path arch) w.st = false
    · rcases hs : S.sh (helm2Cmd C F kubeConf.DownloadCommand path arch) w.st with ⟨_ | err, s⟩ <;>
        simp [hv, hx, hs, downloads_append, removals_append, downloads, removals]
    · simp [hv, hx, downloads_append, removals_append, downloads, removals]
  · simp [hv]

end Loops

/-! ## Deduplication of the docker descriptors -/

section Dedup

/-- Deduplication keeps every element. -/
theorem mem_firstSeen (vs : List String) (u : String) : u ∈ firstSeen vs ↔ u ∈ vs := by
  induction vs with
  | nil => simp [firstSeen]
  | cons v vs ih =>
    simp only [firstSeen, List.mem_cons, List.mem_filter, ih, decide_eq_true_eq]
    by_cases h : u = v <;> simp [h]

/-- Deduplication leaves no element twice. -/
theorem nodup_firstSeen (vs : List String) : (firstSeen vs).Nodup := by
  induction vs with
  | nil => simp [firstSeen]
  | cons v vs ih =>
    simp only [firstSeen, List.nodup_cons, List.mem_filter, decide_eq_true_eq]
    exact ⟨fun h => h.2 rfl, ih.filter _⟩

/-- The elements of `firstSeen vs` come in the order of their first
occurrence in `vs`. -/
theorem firstSeen_order (vs : List String) :
    (firstSeen vs).Pairwise (fun a b => vs.indexOf a < vs.indexOf b) := by
  induction vs with
  | nil => simp [firstSeen]
  | cons v vs ih =>
    simp only [firstSeen, List.pairwise_cons, List.mem_filter, decide_eq_true_eq]
    refine ⟨?_, ?_⟩
    · intro u hu
      rw [List.indexOf_cons_self, List.indexOf_cons_ne _ (fun h => hu.2 h.symm)]
      exact Nat.succ_pos _
    · refine (ih.filter _).imp_of_mem ?_
      intro a b ha hb hab
      simp only [List.mem_filter, decide_eq_true_eq] at ha hb
      rw [List.indexOf_cons_ne _ (fun h => ha.2 h.symm),
        List.indexOf_cons_ne _ (fun h => hb.2 h.symm)]
      exact Nat.succ_lt_succ hab

/-- The loop of lines 99-111 appends, to what it has, the first occurrences of
the versions it has not seen. -/
theorem dockerLoop_eq (C : Consts) (F : Files) (arch path : String) (cs : List ContainerRuntime)
    (arr : List KubeBinary) (seen : List String) :
    (dockerLoop C F arch path cs (arr, seen)).1
      = arr ++ ((firstSeen (cs.map (dockerVersionOf C))).filter (fun u => decide (u ∉ seen))).map
          (fun v => NewKubeBinary F "docker" arch v path) := by
  induction cs generalizing arr seen with
  | nil => simp [dockerLoop, firstSeen]
  | cons c cs ih =>
    simp only [dockerLoop, List.map_cons, firstSeen]
    by_cases h : dockerVersionOf C c ∈ seen
    · rw [if_pos h, ih, List.filter_cons_of_neg (by simpa using h), List.filter_filter]
      congr 2
      apply List.filter_congr
      intro u _
      by_cases hu : u = dockerVersionOf C c
      · simp [hu, h]
      · simp [hu]
    · rw [if_neg h, ih, List.filter_cons_of_pos (by simpa using h), List.filter_filter]
      simp only [List.map_cons, List.append_assoc, List.singleton_append]
      congr 3
      apply List.filter_congr
      intro u _
      simp [Bool.and_comm]

/-- The slice `dockerArr` is the deduplicated list of resolved versions, one docker
descriptor each. -/
theorem dockerArr_eq (C : Consts) (F : Files) (manifest : ArtifactManifest) (path arch : String) :
    dockerArr C F manifest path arch
      = (firstSeen (manifest.ContainerRuntimes.map (dockerVersionOf C))).map
          (fun v => NewKubeBinary F "docker" arch v path) := by
  unfold dockerArr
  rw [dockerLoop_eq]
  simp

/-- The versions of `dockerArr`. -/
theorem dockerArr_versions (C : Consts) (F : Files) (manifest : ArtifactManifest)
    (path arch : String) :
    (dockerArr C F manifest path arch).map (fun b => b.Version)
      = firstSeen (manifest.ContainerRuntimes.map (dockerVersionOf C)) := by
  rw [dockerArr_eq, List.map_map]
  conv_rhs => rw [← List.map_id (firstSeen _)]
  apply List.map_congr_left
  intro v _
  simp [NewKubeBinary]

/-- The base directories are attempted in batch order, up to the first
failure; the downloads are a subsequence of them. -/
theorem artifactLoop_processed {σ : Type} (F : Files) (S : Sys σ) (g : DownloadCommand)
    (bs : List KubeBinary) (w : World σ) :
    ∃ l dl, processed (artifactLoop F S g bs w).2.trace = processed w.trace ++ l
      ∧ l <+: bs
      ∧ ((artifactLoop F S g bs w).1 = none → l = bs)
      ∧ downloads (artifactLoop F S g bs w).2.trace = downloads w.trace ++ dl
      ∧ dl.Sublist l := by
  induction bs generalizing w with
  | nil => exact ⟨[], [], by simp [artifactLoop]⟩
  | cons b bs ih =>
    simp only [artifactLoop]
    rcases hd : S.CreateBaseDir b w.st with ⟨_ | err, s⟩
    · simp only
      have ht := fetchStep_trace F S g b ⟨s, w.trace ++ [Event.createBaseDir b]⟩
      have hshape : ∃ d, processed (w.trace ++ [Event.createBaseDir b]
            ++ fetchEvents F S b s) = processed w.trace ++ [b]
          ∧ downloads (w.trace ++ [Event.createBaseDir b] ++ fetchEvents F S b s)
              = downloads w.trace ++ d ∧ d.Sublist [b] := by
        unfold fetchEvents
        split_ifs
        · split
          · exact ⟨[b], by simp [processed_append, downloads_append, processed, downloads]⟩
          · exact ⟨[], by simp [processed_append, downloads_append, processed, downloads]⟩
        · exact ⟨[b], by simp [processed_append, downloads_append, processed, downloads]⟩
      obtain ⟨d, hp, hdl, hsub⟩ := hshape
      rcases hf : fetchStep F S g b ⟨s, w.trace ++ [Event.createBaseDir b]⟩ with ⟨_ | e, w'⟩
      · rw [hf] at ht
        simp only at ht ⊢
        obtain ⟨l, dl, h1, h2, h3, h4, h5⟩ := ih w'
        refine ⟨b :: l, d ++ dl, ?_, ?_, ?_, ?_, ?_⟩
        · rw [h1, ht, hp]; simp
        · exact (List.prefix_cons_inj b).2 h2
        · intro hn; rw [h3 hn]
        · rw [h4, ht, hdl]; simp
        · exact List.Sublist.append hsub h5
      · rw [hf] at ht
        simp only at ht ⊢
        refine ⟨[b], d, ?_, ?_, ?_, ?_, hsub⟩
        · rw [ht, hp]
        · simp
        · intro hn; simp at hn
        · rw [ht, hdl]
    · refine ⟨[b], [], ?_, ?_, ?_, ?_, ?_⟩ <;>
        simp [processed_append, downloads_append, processed, downloads]

/-- The docker descriptors of the batch of `KubernetesArtifactBinariesDownload`
are those of `dockerArr`. -/
theorem artifactBinaries_docker (C : Consts) (F : Files) (manifest : ArtifactManifest)
    (path arch k8sVersion : String) :
    (artifactBinaries C F manifest path arch k8sVersion).filter (fun b => decide (b.ID = "docker"))
      = dockerArr C F manifest path arch := by
  have hd : (dockerArr C F manifest path arch).filter (fun b => decide (b.ID = "docker"))
      = dockerArr C F manifest path arch := by
    rw [List.filter_eq_self, dockerArr_eq]
    intro b hb
    simp only [List.mem_map] at hb
    obtain ⟨v, _, rfl⟩ := hb
    simp [NewKubeBinary]
  unfold artifactBinaries
  split_ifs <;> simp [List.filter_append, hd, NewKubeBinary, List.filter_cons]

/-- C4 (deduplication): the docker descriptors built by
`KubernetesArtifactBinariesDownload` are the docker descriptors of their
versions; these versions are exactly the versions the container runtimes
resolve to, each one once, in the order of their first occurrence in the
configuration list, so that no identity is repeated.  Versions 20.10, 20.10,
19.03 yield the descriptors of 20.10 and 19.03.  In every run the downloads
invoked for docker are a subsequence of these descriptors, and on a machine
with no file on disk they are the download of 20.10 and then of 19.03. -/
theorem dockerArr_dedup {σ : Type} (C : Consts) (F : Files) (S : Sys σ)
    (manifest : ArtifactManifest) (path arch k8sVersion : String) (s : σ) :
    (∀ b ∈ dockerArr C F manifest path arch, b = NewKubeBinary F "docker" arch b.Version path)
      ∧ (∀ v, v ∈ (dockerArr C F manifest path arch).map (fun b => b.Version)
          ↔ ∃ c ∈ manifest.ContainerRuntimes,
              (if c.Type_ = C.Docker then c.Version else C.DefaultDockerVersion) = v)
      ∧ (dockerArr C F manifest path arch).Nodup
      ∧ ((dockerArr C F manifest path arch).map (fun b => b.Version)).Nodup
      ∧ ((dockerArr C F manifest path arch).map (fun b => b.Version)).Pairwise
          (fun a b =>
            (manifest.ContainerRuntimes.map
                (fun c => if c.Type_ = C.Docker then c.Version else C.DefaultDockerVersion)).indexOf a
              < (manifest.ContainerRuntimes.map
                (fun c => if c.Type_ = C.Docker then c.Version else C.DefaultDockerVersion)).indexOf b)
      ∧ dockerArr demoConsts F demoManifest path arch
          = [NewKubeBinary F "docker" arch "20.10" path, NewKubeBinary F "docker" arch "19.03" path]
      ∧ ((downloads (KubernetesArtifactBinariesDownload C F S manifest path arch k8sVersion
            (fresh s)).2.trace).filter (fun b => decide (b.ID = "docker"))).Sublist
          (dockerArr C F manifest path arch)
      ∧ (downloads (KubernetesArtifactBinariesDownload demoConsts demoFiles
            (demoFake.sys demoFiles) demoManifest "/kk" "amd64" "v1.21.5"
            (fresh emptyDisk)).2.trace).filter (fun b => decide (b.ID = "docker"))
          = [NewKubeBinary demoFiles "docker" "amd64" "20.10" "/kk",
              NewKubeBinary demoFiles "docker" "amd64" "19.03" "/kk"] := by
  have hv := dockerArr_versions C F manifest path arch
  have hfun : (fun c : ContainerRuntime =>
      if c.Type_ = C.Docker then c.Version else C.DefaultDockerVersion) = dockerVersionOf C := by
    funext c; rfl
  refine ⟨?_, ?_, ?_, ?_, ?_, ?_, ?_, ?_⟩
  · intro b hb
    rw [dockerArr_eq] at hb
    simp only [List.mem_map] at hb
    obtain ⟨v, _, rfl⟩ := hb
    rfl
  · intro v
    rw [hv, mem_firstSeen]
    simp [dockerVersionOf]
  · have hn : ((dockerArr C F manifest path arch).map (fun b => b.Version)).Nodup := by
      rw [hv]; exact nodup_firstSeen _
    exact List.Nodup.of_map _ hn
  · rw [hv]; exact nodup_firstSeen _
  · rw [hv, hfun]; exact firstSeen_order _
  · rw [dockerArr_eq]
    simp [demoManifest, demoConsts, dockerVersionOf, firstSeen]
  · obtain ⟨l, dl, _, h2, _, h4, h5⟩ := artifactLoop_processed F S manifest.DownloadCommand
      (artifactBinaries C F manifest path arch k8sVersion) (fresh s)
    unfold KubernetesArtifactBinariesDownload
    rw [h4, ← artifactBinaries_docker C F manifest path arch k8sVersion]
    simp only [fresh, downloads, List.nil_append]
    exact (h5.trans h2.sublist).filter _
  · decide

/-- C10 (batch composition): the descriptors `KubernetesArtifactBinariesDownload`
ranges over are kubeadm, kubelet, kubectl, helm, kubecni, etcd, then one docker
descriptor for each first occurrence of a version among the container runtimes
(the default docker version for a runtime that is not docker, hence none for an
empty list), then crictl when the crictl version of the manifest is not empty.
The base directories are attempted in this order, all of them when the call
returns no error. -/
theorem artifactBinaries_composition {σ : Type} (C : Consts) (F : Files) (S : Sys σ)
    (manifest : ArtifactManifest) (path arch k8sVersion : String) (s : σ) :
    artifactBinaries C F manifest path arch k8sVersion
        = [NewKubeBinary F "kubeadm" arch k8sVersion path,
            NewKubeBinary F "kubelet" arch k8sVersion path,
            NewKubeBinary F "kubectl" arch k8sVersion path,
            NewKubeBinary F "helm" arch manifest.HelmVersion path,
            NewKubeBinary F "kubecni" arch manifest.CNIVersion path,
            NewKubeBinary F "etcd" arch manifest.ETCDVersion path]
          ++ (firstSeen (manifest.ContainerRuntimes.map
                (fun c => if c.Type_ = C.Docker then c.Version else C.DefaultDockerVersion))).map
              (fun v => NewKubeBinary F "docker" arch v path)
          ++ (if manifest.CrictlVersion = "" then []
              else [NewKubeBinary F "crictl" arch manifest.CrictlVersion path])
      ∧ (manifest.ContainerRuntimes = [] → dockerArr C F manifest path arch = [])
      ∧ processed (KubernetesArtifactBinariesDownload C F S manifest path arch k8sVersion
            (fresh s)).2.trace <+: artifactBinaries C F manifest path arch k8sVersion
      ∧ ((KubernetesArtifactBinariesDownload C F S manifest path arch k8sVersion (fresh s)).1 = none
          → processed (KubernetesArtifactBinariesDownload C F S manifest path arch k8sVersion
              (fresh s)).2.trace = artifactBinaries C F manifest path arch k8sVersion) := by
  have hfun : (fun c : ContainerRuntime =>
      if c.Type_ = C.Docker then c.Version else C.DefaultDockerVersion) = dockerVersionOf C := by
    funext c; rfl
  obtain ⟨l, dl, h1, h2, h3, _, _⟩ := artifactLoop_processed F S manifest.DownloadCommand
    (artifactBinaries C F manifest path arch k8sVersion) (fresh s)
  simp only [fresh, processed, List.nil_append] at h1
  refine ⟨?_, ?_, ?_, ?_⟩
  · rw [hfun, ← dockerArr_eq]
    unfold artifactBinaries
    by_cases hc : manifest.CrictlVersion = "" <;> simp [hc]
  · intro he
    rw [dockerArr_eq, he]
    rfl
  · unfold KubernetesArtifactBinariesDownload
    simp only [fresh]
    rw [h1]
    exact h2
  · intro hn
    unfold KubernetesArtifactBinariesDownload at hn ⊢
    simp only [fresh] at hn ⊢
    rw [h1]
    exact h3 hn

end Dedup

/-! ## One descriptor of a batch -/

section Descriptor

variable {σ : Type}

/-- After a front part that succeeded the loop goes on with the rest. -/
theorem artifactLoop_split (F : Files) (S : Sys σ) (g : DownloadCommand)
    (pre post : List KubeBinary) (w w1 : World σ) (hpre : artifactLoop F S g pre w = (none, w1)) :
    artifactLoop F S g (pre ++ post) w = artifactLoop F S g post w1 := by
  rw [artifactLoop_append, hpre]

/-- After a front part that succeeded the loop of `K8sFilesDownloadHTTP` goes on
with the rest. -/
theorem k8sLoop_split (F : Files) (S : Sys σ) (g : DownloadCommand)
    (pre post : List KubeBinary) (m m1 : BinariesMap) (w w1 : World σ)
    (hpre : k8sLoop F S g pre m w = (none, m1, w1)) :
    k8sLoop F S g (pre ++ post) m w = k8sLoop F S g post m1 w1 := by
  rw [k8sLoop_append, hpre]

/-- The eight descriptors of `K8sFilesDownloadHTTP` are pairwise distinct. -/
theorem k8sBinaries_nodup (C : Consts) (F : Files) (path version arch : String) :
    (k8sBinaries C F path version arch).Nodup := by
  have h : ((k8sBinaries C F path version arch).map (fun b => b.ID)).Nodup := by
    simp [k8sBinaries, NewKubeBinary]
  exact List.Nodup.of_map _ h

/-- The descriptors of `KubernetesArtifactBinariesDownload` are pairwise distinct. -/
theorem artifactBinaries_nodup (C : Consts) (F : Files) (manifest : ArtifactManifest)
    (path arch k8sVersion : String) :
    (artifactBinaries C F manifest path arch k8sVersion).Nodup := by
  have hn : (dockerArr C F manifest path arch).Nodup := by
    have hv : ((dockerArr C F manifest path arch).map (fun b => b.Version)).Nodup := by
      rw [dockerArr_versions]; exact nodup_firstSeen _
    exact List.Nodup.of_map _ hv
  have hid : ∀ b ∈ dockerArr C F manifest path arch, b.ID = "docker" := by
    intro b hb
    rw [dockerArr_eq] at hb
    simp only [List.mem_map] at hb
    obtain ⟨v, _, rfl⟩ := hb
    rfl
  have hout : ∀ name version, name ≠ "docker" →
      NewKubeBinary F name arch version path ∉ dockerArr C F manifest path arch := by
    intro name version hne hmem
    exact hne (hid _ hmem)
  unfold artifactBinaries
  simp only
  split_ifs
  · rw [List.nodup_append]
    refine ⟨?_, by simp, ?_⟩
    · rw [List.nodup_append]
      refine ⟨by simp [NewKubeBinary], hn, ?_⟩
      intro b hb hb'
      have := hid b hb'
      simp [NewKubeBinary] at hb
      rcases hb with rfl | rfl | rfl | rfl | rfl | rfl <;> simp at this
    · intro b hb hb'
      simp only [List.mem_singleton] at hb'
      subst hb'
      rcases List.mem_append.1 hb with h | h
      · simp [NewKubeBinary] at h
      · exact hout _ _ (by decide) h
  · rw [List.nodup_append]
    refine ⟨by simp [NewKubeBinary], hn, ?_⟩
    intro b hb hb'
    have := hid b hb'
    simp [NewKubeBinary] at hb
    rcases hb with rfl | rfl | rfl | rfl | rfl | rfl <;> simp at this

/-- In a call on a batch of pairwise distinct descriptors no descriptor is
downloaded twice. -/
theorem artifactLoop_downloads_nodup (F : Files) (S : Sys σ) (g : DownloadCommand)
    (bs : List KubeBinary) (hbs : bs.Nodup) (w : World σ) (hw : w.trace = []) :
    (downloads (artifactLoop F S g bs w).2.trace).Nodup := by
  obtain ⟨l, dl, _, h2, _, h4, h5⟩ := artifactLoop_processed F S g bs w
  rw [h4, hw]
  simp only [downloads, List.nil_append]
  exact (hbs.sublist h2.sublist).sublist h5

/-- What follows the loop invokes no download of a descriptor. -/
theorem k8sFinish_downloads (C : Consts) (F : Files) (S : Sys σ) (kubeConf : KubeConf)
    (path arch : String) (pipelineCache : Cache) (r : Option BatchError × BinariesMap × World σ) :
    downloads (k8sFinish C F S kubeConf path arch pipelineCache r).2.2.trace
      = downloads r.2.2.trace := by
  rcases r with ⟨_ | e, m, w1⟩
  · have hg := (legacyStep_downloads C F S kubeConf path arch w1).1
    simp only [k8sFinish]
    rcases hs : legacyStep C F S kubeConf path arch w1 with ⟨_ | e2, w2⟩
    · rw [hs] at hg
      simpa [downloads_append, downloads] using hg
    · rw [hs] at hg
      simpa using hg
  · simp [k8sFinish]

/-- C3 (corruption recovery), for both functions: when the descriptors before
`b` were processed without error, the base directory of `b` is created, and the
file of `b` exists and fails `SHA256Check`, the call issues `rm -f` for the path
of `b`, whose outcome is ignored, and then invokes the download of `b`.  If the
download fails the call returns the download error, which wraps the error of
`Download`; otherwise the call goes on with the descriptors after `b`.  The
error of the integrity check appears in neither, and in the whole call the
download of `b` is invoked exactly once. -/
theorem corruption_recovery (C : Consts) (F : Files) (S : Sys σ) :
    (∀ (manifest : ArtifactManifest) (path arch k8sVersion : String)
        (pre post : List KubeBinary) (b : KubeBinary) (w w1 : World σ) (s1 : σ) (e : Err),
        artifactBinaries C F manifest path arch k8sVersion = pre ++ b :: post →
        artifactLoop F S manifest.DownloadCommand pre w = (none, w1) →
        S.CreateBaseDir b w1.st = (none, s1) →
        S.IsExist (F.Path b) s1 = true →
        S.SHA256Check b s1 = some e →
        KubernetesArtifactBinariesDownload C F S manifest path arch k8sVersion w
            = (match S.Download manifest.DownloadCommand b (S.sh ("rm -f " ++ F.Path b) s1).2 with
              | (some err, s3) =>
                  (some (BatchError.download b.ID (F.GetCmd manifest.DownloadCommand b) err),
                    ⟨s3, w1.trace ++ [Event.createBaseDir b, Event.isExist (F.Path b),
                      Event.sha256Check b, Event.rm (F.Path b), Event.download b]⟩)
              | (none, s3) =>
                  artifactLoop F S manifest.DownloadCommand post
                    ⟨s3, w1.trace ++ [Event.createBaseDir b, Event.isExist (F.Path b),
                      Event.sha256Check b, Event.rm (F.Path b), Event.download b]⟩)
          ∧ (w.trace = [] →
              (downloads (KubernetesArtifactBinariesDownload C F S manifest path arch k8sVersion
                w).2.trace).count b = 1))
      ∧ (∀ (kubeConf : KubeConf) (path version arch : String) (pipelineCache : Cache)
          (pre post : List KubeBinary) (b : KubeBinary) (m1 : BinariesMap) (w w1 : World σ)
          (s1 : σ) (e : Err),
          k8sBinaries C F path version arch = pre ++ b :: post →
          k8sLoop F S kubeConf.DownloadCommand pre BinariesMap.empty w = (none, m1, w1) →
          S.CreateBaseDir b w1.st = (none, s1) →
          S.IsExist (F.Path b) s1 = true →
          S.SHA256Check b s1 = some e →
          K8sFilesDownloadHTTP C F S kubeConf path version arch pipelineCache w
              = (match S.Download kubeConf.DownloadCommand b (S.sh ("rm -f " ++ F.Path b) s1).2
                  with
                | (some err, s3) =>
                    (some (BatchError.download b.ID (F.GetCmd kubeConf.DownloadCommand b) err),
                      pipelineCache,
                      ⟨s3, w1.trace ++ [Event.createBaseDir b, Event.isExist (F.Path b),
                        Event.sha256Check b, Event.rm (F.Path b), Event.download b]⟩)
                | (none, s3) =>
                    k8sFinish C F S kubeConf path arch pipelineCache
                      (k8sLoop F S kubeConf.DownloadCommand post (m1.set b.ID b)
                        ⟨s3, w1.trace ++ [Event.createBaseDir b, Event.isExist (F.Path b),
                          Event.sha256Check b, Event.rm (F.Path b), Event.download b]⟩))
            ∧ (w.trace = [] →
                (downloads (K8sFilesDownloadHTTP C F S kubeConf path version arch pipelineCache
                  w).2.2.trace).count b = 1)) := by
  constructor
  · intro manifest path arch k8sVersion pre post b w w1 s1 e hb hpre hdir hex hchk
    have hmain : KubernetesArtifactBinariesDownload C F S manifest path arch k8sVersion w
        = (match S.Download manifest.DownloadCommand b (S.sh ("rm -f " ++ F.Path b) s1).2 with
          | (some err, s3) =>
              (some (BatchError.download b.ID (F.GetCmd manifest.DownloadCommand b) err),
                ⟨s3, w1.trace ++ [Event.createBaseDir b, Event.isExist (F.Path b),
                  Event.sha256Check b, Event.rm (F.Path b), Event.download b]⟩)
          | (none, s3) =>
              artifactLoop F S manifest.DownloadCommand post
                ⟨s3, w1.trace ++ [Event.createBaseDir b, Event.isExist (F.Path b),
                  Event.sha256Check b, Event.rm (F.Path b), Event.download b]⟩) := by
      unfold KubernetesArtifactBinariesDownload
      rw [hb, artifactLoop_split F S _ pre (b :: post) w w1 hpre]
      simp only [artifactLoop, hdir, fetchStep, hex, hchk, if_true, downloadStep_eq]
      rcases hdl : S.Download manifest.DownloadCommand b (S.sh ("rm -f " ++ F.Path b) s1).2
        with ⟨_ | err, s3⟩ <;> simp
    refine ⟨hmain, fun hw => List.count_eq_one_of_mem ?_ ?_⟩
    · unfold KubernetesArtifactBinariesDownload
      exact artifactLoop_downloads_nodup F S _ _ (artifactBinaries_nodup C F manifest path arch
        k8sVersion) w hw
    · rw [hmain]
      rcases hdl : S.Download manifest.DownloadCommand b (S.sh ("rm -f " ++ F.Path b) s1).2
        with ⟨_ | err, s3⟩
      · simp only
        obtain ⟨l, dl, _, _, _, h4, _⟩ := artifactLoop_processed F S manifest.DownloadCommand post
          ⟨s3, w1.trace ++ [Event.createBaseDir b, Event.isExist (F.Path b),
            Event.sha256Check b, Event.rm (F.Path b), Event.download b]⟩
        rw [h4]
        simp [downloads_append, downloads]
      · simp [downloads_append, downloads]
  · intro kubeConf path version arch pipelineCache pre post b m1 w w1 s1 e hb hpre hdir hex hchk
    have hmain : K8sFilesDownloadHTTP C F S kubeConf path version arch pipelineCache w
        = (match S.Download kubeConf.DownloadCommand b (S.sh ("rm -f " ++ F.Path b) s1).2 with
          | (some err, s3) =>
              (some (BatchError.download b.ID (F.GetCmd kubeConf.DownloadCommand b) err),
                pipelineCache,
                ⟨s3, w1.trace ++ [Event.createBaseDir b, Event.isExist (F.Path b),
                  Event.sha256Check b, Event.rm (F.Path b), Event.download b]⟩)
          | (none, s3) =>
              k8sFinish C F S kubeConf path arch pipelineCache
                (k8sLoop F S kubeConf.DownloadCommand post (m1.set b.ID b)
                  ⟨s3, w1.trace ++ [Event.createBaseDir b, Event.isExist (F.Path b),
                    Event.sha256Check b, Event.rm (F.Path b), Event.download b]⟩)) := by
      unfold K8sFilesDownloadHTTP
      rw [hb, k8sLoop_split F S _ pre (b :: post) _ m1 w w1 hpre]
      simp only [k8sLoop, hdir, fetchStep, hex, hchk, if_true, downloadStep_eq]
      rcases hdl : S.Download kubeConf.DownloadCommand b (S.sh ("rm -f " ++ F.Path b) s1).2
        with ⟨_ | err, s3⟩ <;> simp [k8sFinish]
    refine ⟨hmain, fun hw => List.count_eq_one_of_mem ?_ ?_⟩
    · unfold K8sFilesDownloadHTTP
      rw [k8sFinish_downloads, (k8sLoop_eq F S _ _ _ w).2.1]
      exact artifactLoop_downloads_nodup F S _ _ (k8sBinaries_nodup C F path version arch) w hw
    · rw [hmain]
      rcases hdl : S.Download kubeConf.DownloadCommand b (S.sh ("rm -f " ++ F.Path b) s1).2
        with ⟨_ | err, s3⟩
      · simp only
        rw [k8sFinish_downloads, (k8sLoop_eq F S _ _ _ _).2.1]
        obtain ⟨l, dl, _, _, _, h4, _⟩ := artifactLoop_processed F S kubeConf.DownloadCommand post
          ⟨s3, w1.trace ++ [Event.createBaseDir b, Event.isExist (F.Path b),
            Event.sha256Check b, Event.rm (F.Path b), Event.download b]⟩
        rw [h4]
        simp [downloads_append, downloads]
      · simp [downloads_append, downloads]

/-- How the processing of a single descriptor fails: in the creation of its
base directory, or in its download, invoked once. -/
theorem artifactLoop_single_error (F : Files) (S : Sys σ) (g : DownloadCommand) (b : KubeBinary)
    (w1 : World σ) (e : BatchError) (h : (artifactLoop F S g [b] w1).1 = some e) :
    (∃ err, (S.CreateBaseDir b w1.st).1 = some err
        ∧ e = BatchError.createBaseDir b.FileName err
        ∧ (artifactLoop F S g [b] w1).2
            = ⟨(S.CreateBaseDir b w1.st).2, w1.trace ++ [Event.createBaseDir b]⟩)
      ∨ (∃ err s2, (S.CreateBaseDir b w1.st).1 = none
          ∧ (S.Download g b s2).1 = some err
          ∧ e = BatchError.download b.ID (F.GetCmd g b) err
          ∧ (artifactLoop F S g [b] w1).2.st = (S.Download g b s2).2
          ∧ ((artifactLoop F S g [b] w1).2.trace
                = w1.trace ++ [Event.createBaseDir b, Event.isExist (F.Path b), Event.download b]
              ∨ (artifactLoop F S g [b] w1).2.trace
                = w1.trace ++ [Event.createBaseDir b, Event.isExist (F.Path b),
                    Event.sha256Check b, Event.rm (F.Path b), Event.download b])) := by
  simp only [artifactLoop] at h ⊢
  rcases hd : S.CreateBaseDir b w1.st with ⟨_ | err, s⟩
  · right
    rw [hd] at h
    simp only [fetchStep, downloadStep_eq] at h ⊢
    by_cases hx : S.IsExist (F.Path b) s = true
    · rcases hc : S.SHA256Check b s with _ | ce
      · simp [hx, hc] at h
      · simp only [hx, hc, if_true] at h ⊢
        rcases hdl : S.Download g b (S.sh ("rm -f " ++ F.Path b) s).2 with ⟨_ | derr, s3⟩
        · simp [hdl] at h
        · refine ⟨derr, (S.sh ("rm -f " ++ F.Path b) s).2, trivial, by simp [hdl], ?_, ?_, ?_⟩
          · simpa [hdl] using h.symm
          · simp [hdl]
          · right; simp [hdl]
    · simp only [hx] at h ⊢
      rcases hdl : S.Download g b s with ⟨_ | derr, s3⟩
      · simp [hdl] at h
      · refine ⟨derr, s, trivial, by simp [hdl], ?_, ?_, ?_⟩
        · simpa [hdl] using h.symm
        · simp [hdl]
        · left; simp [hdl]
  · left
    rw [hd] at h
    exact ⟨err, rfl, by simpa using h.symm, by simp⟩

/-- Once the processing of a descriptor returns an error the call returns it,
in the world that processing leaves; base directories have then been attempted
for the descriptors up to it only. -/
theorem step_error_cut (C : Consts) (F : Files) (S : Sys σ) :
    (∀ (manifest : ArtifactManifest) (path arch k8sVersion : String)
        (pre post : List KubeBinary) (b : KubeBinary) (w w1 : World σ) (e : BatchError),
        artifactBinaries C F manifest path arch k8sVersion = pre ++ b :: post →
        artifactLoop F S manifest.DownloadCommand pre w = (none, w1) →
        (artifactLoop F S manifest.DownloadCommand [b] w1).1 = some e →
        KubernetesArtifactBinariesDownload C F S manifest path arch k8sVersion w
            = (some e, (artifactLoop F S manifest.DownloadCommand [b] w1).2)
          ∧ ((artifactLoop F S manifest.DownloadCommand [b] w1).2
                = ⟨(S.CreateBaseDir b w1.st).2, w1.trace ++ [Event.createBaseDir b]⟩
              ∨ (∃ s2, (artifactLoop F S manifest.DownloadCommand [b] w1).2
                  = ⟨(S.Download manifest.DownloadCommand b s2).2,
                      w1.trace ++ [Event.createBaseDir b, Event.isExist (F.Path b),
                        Event.download b]⟩)
              ∨ (∃ s2, (artifactLoop F S manifest.DownloadCommand [b] w1).2
                  = ⟨(S.Download manifest.DownloadCommand b s2).2,
                      w1.trace ++ [Event.createBaseDir b, Event.isExist (F.Path b),
                        Event.sha256Check b, Event.rm (F.Path b), Event.download b]⟩))
          ∧ (w.trace = [] →
              processed (KubernetesArtifactBinariesDownload C F S manifest path arch k8sVersion
                  w).2.trace = pre ++ [b]
                ∧ (downloads (KubernetesArtifactBinariesDownload C F S manifest path arch
                  k8sVersion w).2.trace).count b ≤ 1))
      ∧ (∀ (kubeConf : KubeConf) (path version arch : String) (pipelineCache : Cache)
          (pre post : List KubeBinary) (b : KubeBinary) (m1 : BinariesMap) (w w1 : World σ)
          (e : BatchError),
          k8sBinaries C F path version arch = pre ++ b :: post →
          k8sLoop F S kubeConf.DownloadCommand pre BinariesMap.empty w = (none, m1, w1) →
          (artifactLoop F S kubeConf.DownloadCommand [b] w1).1 = some e →
          K8sFilesDownloadHTTP C F S kubeConf path version arch pipelineCache w
              = (some e, pipelineCache, (artifactLoop F S kubeConf.DownloadCommand [b] w1).2)
            ∧ ((artifactLoop F S kubeConf.DownloadCommand [b] w1).2
                  = ⟨(S.CreateBaseDir b w1.st).2, w1.trace ++ [Event.createBaseDir b]⟩
                ∨ (∃ s2, (artifactLoop F S kubeConf.DownloadCommand [b] w1).2
                    = ⟨(S.Download kubeConf.DownloadCommand b s2).2,
                        w1.trace ++ [Event.createBaseDir b, Event.isExist (F.Path b),
                          Event.download b]⟩)
                ∨ (∃ s2, (artifactLoop F S kubeConf.DownloadCommand [b] w1).2
                    = ⟨(S.Download kubeConf.DownloadCommand b s2).2,
                        w1.trace ++ [Event.createBaseDir b, Event.isExist (F.Path b),
                          Event.sha256Check b, Event.rm (F.Path b), Event.download b]⟩))
            ∧ (w.trace = [] →
                processed (K8sFilesDownloadHTTP C F S kubeConf path version arch pipelineCache
                    w).2.2.trace = pre ++ [b]
                  ∧ (downloads (K8sFilesDownloadHTTP C F S kubeConf path version arch
                    pipelineCache w).2.2.trace).count b ≤ 1
                  ∧ legacyRuns (K8sFilesDownloadHTTP C F S kubeConf path version arch
                    pipelineCache w).2.2.trace = [])) := by
  have shape : ∀ (g : DownloadCommand) (b : KubeBinary) (w1 : World σ) (e : BatchError),
      (artifactLoop F S g [b] w1).1 = some e →
      ((artifactLoop F S g [b] w1).2
            = ⟨(S.CreateBaseDir b w1.st).2, w1.trace ++ [Event.createBaseDir b]⟩
          ∨ (∃ s2, (artifactLoop F S g [b] w1).2
              = ⟨(S.Download g b s2).2,
                  w1.trace ++ [Event.createBaseDir b, Event.isExist (F.Path b),
                    Event.download b]⟩)
          ∨ (∃ s2, (artifactLoop F S g [b] w1).2
              = ⟨(S.Download g b s2).2,
                  w1.trace ++ [Event.createBaseDir b, Event.isExist (F.Path b),
                    Event.sha256Check b, Event.rm (F.Path b), Event.download b]⟩)) := by
    intro g b w1 e h
    rcases artifactLoop_single_error F S g b w1 e h with ⟨err, _, _, hw⟩ | ⟨err, s2, _, _, _, hst, htr⟩
    · exact Or.inl hw
    · rcases hW : (artifactLoop F S g [b] w1).2 with ⟨st, tr⟩
      rw [hW] at hst htr
      simp only at hst htr
      rcases htr with htr | htr
      · exact Or.inr (Or.inl ⟨s2, by rw [hst, htr]⟩)
      · exact Or.inr (Or.inr ⟨s2, by rw [hst, htr]⟩)
  have cut : ∀ (g : DownloadCommand) (b : KubeBinary) (post : List KubeBinary) (w1 : World σ)
      (e : BatchError), (artifactLoop F S g [b] w1).1 = some e →
      artifactLoop F S g (b :: post) w1 = (some e, (artifactLoop F S g [b] w1).2) := by
    intro g b post w1 e h
    have := artifactLoop_append F S g [b] post w1
    simp only [List.singleton_append] at this
    rw [this]
    rcases hr : artifactLoop F S g [b] w1 with ⟨_ | e', w'⟩
    · rw [hr] at h; simp at h
    · rw [hr] at h; simp at h; simp [h]
  have proc : ∀ (g : DownloadCommand) (pre : List KubeBinary) (b : KubeBinary) (w w1 : World σ)
      (e : BatchError), w.trace = [] → artifactLoop F S g pre w = (none, w1) →
      (artifactLoop F S g [b] w1).1 = some e →
      processed (artifactLoop F S g [b] w1).2.trace = pre ++ [b] := by
    intro g pre b w w1 e hw hpre h
    obtain ⟨l, dl, h1, _, h3, _, _⟩ := artifactLoop_processed F S g pre w
    rw [hpre] at h1 h3
    simp only [hw, processed, List.nil_append] at h1
    have hl := h3 rfl
    subst hl
    rcases shape g b w1 e h with hW | ⟨s2, hW⟩ | ⟨s2, hW⟩ <;>
      rw [hW] <;> simp [processed_append, processed, h1]
  constructor
  · intro manifest path arch k8sVersion pre post b w w1 e hb hpre hfail
    have hmain : KubernetesArtifactBinariesDownload C F S manifest path arch k8sVersion w
        = (some e, (artifactLoop F S manifest.DownloadCommand [b] w1).2) := by
      unfold KubernetesArtifactBinariesDownload
      rw [hb, artifactLoop_split F S _ pre (b :: post) w w1 hpre]
      exact cut _ b post w1 e hfail
    refine ⟨hmain, shape _ b w1 e hfail, fun hw => ⟨?_, ?_⟩⟩
    · rw [hmain]
      exact proc _ pre b w w1 e hw hpre hfail
    · unfold KubernetesArtifactBinariesDownload
      exact List.nodup_iff_count_le_one.1 (artifactLoop_downloads_nodup F S _ _
        (artifactBinaries_nodup C F manifest path arch k8sVersion) w hw) b
  · intro kubeConf path version arch pipelineCache pre post b m1 w w1 e hb hpre hfail
    have hk := k8sLoop_eq F S kubeConf.DownloadCommand (b :: post) m1 w1
    rw [cut _ b post w1 e hfail] at hk
    have hmain : K8sFilesDownloadHTTP C F S kubeConf path version arch pipelineCache w
        = (some e, pipelineCache, (artifactLoop F S kubeConf.DownloadCommand [b] w1).2) := by
      unfold K8sFilesDownloadHTTP
      rw [hb, k8sLoop_split F S _ pre (b :: post) _ m1 w w1 hpre]
      rcases hl : k8sLoop F S kubeConf.DownloadCommand (b :: post) m1 w1 with ⟨r, m, w'⟩
      rw [hl] at hk
      simp only at hk
      rw [hk.1, hk.2.1]
      rfl
    have hpreA : artifactLoop F S kubeConf.DownloadCommand pre w = (none, w1) := by
      have hp := k8sLoop_eq F S kubeConf.DownloadCommand pre BinariesMap.empty w
      rw [hpre] at hp
      simp only at hp
      rcases hr : artifactLoop F S kubeConf.DownloadCommand pre w with ⟨r, w'⟩
      rw [hr] at hp
      simp only at hp
      rw [← hp.1, hp.2.1]
    refine ⟨hmain, shape _ b w1 e hfail, fun hw => ⟨?_, ?_, ?_⟩⟩
    · rw [hmain]
      exact proc _ pre b w w1 e hw hpreA hfail
    · unfold K8sFilesDownloadHTTP
      rw [k8sFinish_downloads, (k8sLoop_eq F S _ _ _ w).2.1]
      exact List.nodup_iff_count_le_one.1 (artifactLoop_downloads_nodup F S _ _
        (k8sBinaries_nodup C F path version arch) w hw) b
    · rw [hmain]
      simp only
      rw [(artifactLoop_quiet F S kubeConf.DownloadCommand [b] w1).2]
      have hq := (artifactLoop_quiet F S kubeConf.DownloadCommand pre w).2
      rw [hpreA] at hq
      simp only at hq
      rw [hq, hw]
      rfl

/-- The downloads of a call on a fresh trace are descriptors of its batch. -/
theorem artifactLoop_downloads_mem (F : Files) (S : Sys σ) (g : DownloadCommand)
    (bs : List KubeBinary) (w : World σ) (d : KubeBinary)
    (h : d ∈ downloads (artifactLoop F S g bs w).2.trace) : d ∈ downloads w.trace ∨ d ∈ bs := by
  obtain ⟨l, dl, _, h2, _, h4, h5⟩ := artifactLoop_processed F S g bs w
  rw [h4] at h
  rcases List.mem_append.1 h with h | h
  · exact Or.inl h
  · exact Or.inr (h2.subset (h5.subset h))

/-- C5 (fail-fast without retry), for both functions: let the descriptors
before `b` have been processed without error.  If `CreateBaseDir` fails for `b`,
the call returns the directory-creation error at once and the trace ends with
that attempt.  If the base directory is created and `Download` fails for `b`,
on a missing file or after the removal of a file that failed the check, the
call returns the download error at once and the trace ends with that single
download.  In each case the state is the one the failing operation left, no
event of a later descriptor and no helm2 command follows, base directories
have been attempted for the descriptors up to `b` only, and the download of `b`
was invoked at most once. -/
theorem fail_fast (C : Consts) (F : Files) (S : Sys σ) :
    (∀ (manifest : ArtifactManifest) (path arch k8sVersion : String)
        (pre post : List KubeBinary) (b : KubeBinary) (w w1 : World σ),
        artifactBinaries C F manifest path arch k8sVersion = pre ++ b :: post →
        artifactLoop F S manifest.DownloadCommand pre w = (none, w1) →
        (∀ (err : Err) (s1 : σ), S.CreateBaseDir b w1.st = (some err, s1) →
            KubernetesArtifactBinariesDownload C F S manifest path arch k8sVersion w
                = (some (BatchError.createBaseDir b.FileName err),
                    ⟨s1, w1.trace ++ [Event.createBaseDir b]⟩)
              ∧ (w.trace = [] →
                  processed (KubernetesArtifactBinariesDownload C F S manifest path arch
                      k8sVersion w).2.trace = pre ++ [b]
                    ∧ (downloads (KubernetesArtifactBinariesDownload C F S manifest path arch
                      k8sVersion w).2.trace).count b = 0))
          ∧ (∀ (err : Err) (s1 s3 : σ), S.CreateBaseDir b w1.st = (none, s1) →
              S.IsExist (F.Path b) s1 = false →
              S.Download manifest.DownloadCommand b s1 = (some err, s3) →
              KubernetesArtifactBinariesDownload C F S manifest path arch k8sVersion w
                  = (some (BatchError.download b.ID (F.GetCmd manifest.DownloadCommand b) err),
                      ⟨s3, w1.trace ++ [Event.createBaseDir b, Event.isExist (F.Path b),
                        Event.download b]⟩)
                ∧ (w.trace = [] →
                    processed (KubernetesArtifactBinariesDownload C F S manifest path arch
                        k8sVersion w).2.trace = pre ++ [b]
                      ∧ (downloads (KubernetesArtifactBinariesDownload C F S manifest path arch
                        k8sVersion w).2.trace).count b = 1))
          ∧ (∀ (err ce : Err) (s1 s3 : σ), S.CreateBaseDir b w1.st = (none, s1) →
              S.IsExist (F.Path b) s1 = true →
              S.SHA256Check b s1 = some ce →
              S.Download manifest.DownloadCommand b (S.sh ("rm -f " ++ F.Path b) s1).2
                = (some err, s3) →
              KubernetesArtifactBinariesDownload C F S manifest path arch k8sVersion w
                  = (some (BatchError.download b.ID (F.GetCmd manifest.DownloadCommand b) err),
                      ⟨s3, w1.trace ++ [Event.createBaseDir b, Event.isExist (F.Path b),
                        Event.sha256Check b, Event.rm (F.Path b), Event.download b]⟩)
                ∧ (w.trace = [] →
                    processed (KubernetesArtifactBinariesDownload C F S manifest path arch
                        k8sVersion w).2.trace = pre ++ [b]
                      ∧ (downloads (KubernetesArtifactBinariesDownload C F S manifest path arch
                        k8sVersion w).2.trace).count b = 1)))
      ∧ (∀ (kubeConf : KubeConf) (path version arch : String) (pipelineCache : Cache)
          (pre post : List KubeBinary) (b : KubeBinary) (m1 : BinariesMap) (w w1 : World σ),
          k8sBinaries C F path version arch = pre ++ b :: post →
          k8sLoop F S kubeConf.DownloadCommand pre BinariesMap.empty w = (none, m1, w1) →
          (∀ (err : Err) (s1 : σ), S.CreateBaseDir b w1.st = (some err, s1) →
              K8sFilesDownloadHTTP C F S kubeConf path version arch pipelineCache w
                  = (some (BatchError.createBaseDir b.FileName err), pipelineCache,
                      ⟨s1, w1.trace ++ [Event.createBaseDir b]⟩)
                ∧ (w.trace = [] →
                    processed (K8sFilesDownloadHTTP C F S kubeConf path version arch
                        pipelineCache w).2.2.trace = pre ++ [b]
                      ∧ (downloads (K8sFilesDownloadHTTP C F S kubeConf path version arch
                        pipelineCache w).2.2.trace).count b = 0
                      ∧ legacyRuns (K8sFilesDownloadHTTP C F S kubeConf path version arch
                        pipelineCache w).2.2.trace = []))
            ∧ (∀ (err : Err) (s1 s3 : σ), S.CreateBaseDir b w1.st = (none, s1) →
                S.IsExist (F.Path b) s1 = false →
                S.Download kubeConf.DownloadCommand b s1 = (some err, s3) →
                K8sFilesDownloadHTTP C F S kubeConf path version arch pipelineCache w
                    = (some (BatchError.download b.ID (F.GetCmd kubeConf.DownloadCommand b) err),
                        pipelineCache,
                        ⟨s3, w1.trace ++ [Event.createBaseDir b, Event.isExist (F.Path b),
                          Event.download b]⟩)
                  ∧ (w.trace = [] →
                      processed (K8sFilesDownloadHTTP C F S kubeConf path version arch
                          pipelineCache w).2.2.trace = pre ++ [b]
                        ∧ (downloads (K8sFilesDownloadHTTP C F S kubeConf path version arch
                          pipelineCache w).2.2.trace).count b = 1
                        ∧ legacyRuns (K8sFilesDownloadHTTP C F S kubeConf path version arch
                          pipelineCache w).2.2.trace = []))
            ∧ (∀ (err ce : Err) (s1 s3 : σ), S.CreateBaseDir b w1.st = (none, s1) →
                S.IsExist (F.Path b) s1 = true →
                S.SHA256Check b s1 = some ce →
                S.Download kubeConf.DownloadCommand b (S.sh ("rm -f " ++ F.Path b) s1).2
                  = (some err, s3) →
                K8sFilesDownloadHTTP C F S kubeConf path version arch pipelineCache w
                    = (some (BatchError.download b.ID (F.GetCmd kubeConf.DownloadCommand b) err),
                        pipelineCache,
                        ⟨s3, w1.trace ++ [Event.createBaseDir b, Event.isExist (F.Path b),
                          Event.sha256Check b, Event.rm (F.Path b), Event.download b]⟩)
                  ∧ (w.trace = [] →
                      processed (K8sFilesDownloadHTTP C F S kubeConf path version arch
                          pipelineCache w).2.2.trace = pre ++ [b]
                        ∧ (downloads (K8sFilesDownloadHTTP C F S kubeConf path version arch
                          pipelineCache w).2.2.trace).count b = 1
                        ∧ legacyRuns (K8sFilesDownloadHTTP C F S kubeConf path version arch
                          pipelineCache w).2.2.trace = []))) := by
  -- the downloads made for the descriptors before `b` do not include `b`
  have before : ∀ (g : DownloadCommand) (pre post : List KubeBinary) (b : KubeBinary)
      (w w1 : World σ), (pre ++ b :: post).Nodup → w.trace = [] →
      artifactLoop F S g pre w = (none, w1) → (downloads w1.trace).count b = 0 := by
    intro g pre post b w w1 hn hw hpre
    have hb1 : b ∉ pre := fun h => (List.nodup_append.1 hn).2.2 h (List.mem_cons_self _ _)
    rw [List.count_eq_zero]
    intro hmem
    have h' : b ∈ downloads (artifactLoop F S g pre w).2.trace := by rw [hpre]; exact hmem
    rcases artifactLoop_downloads_mem F S g pre w b h' with h0 | h0
    · rw [hw] at h0; simp [downloads] at h0
    · exact hb1 h0
  have toA : ∀ (g : DownloadCommand) (pre : List KubeBinary) (m1 : BinariesMap)
      (w w1 : World σ), k8sLoop F S g pre BinariesMap.empty w = (none, m1, w1) →
      artifactLoop F S g pre w = (none, w1) := by
    intro g pre m1 w w1 hpre
    have hp := k8sLoop_eq F S g pre BinariesMap.empty w
    rw [hpre] at hp
    simp only at hp
    rcases hr : artifactLoop F S g pre w with ⟨r, w'⟩
    rw [hr] at hp
    simp only at hp
    rw [← hp.1, hp.2.1]
  constructor
  · intro manifest path arch k8sVersion pre post b w w1 hb hpre
    have hn := artifactBinaries_nodup C F manifest path arch k8sVersion
    rw [hb] at hn
    refine ⟨?_, ?_, ?_⟩
    · intro err s1 hdir
      have h1 : artifactLoop F S manifest.DownloadCommand [b] w1
          = (some (BatchError.createBaseDir b.FileName err),
              ⟨s1, w1.trace ++ [Event.createBaseDir b]⟩) := by
        simp [artifactLoop, hdir]
      have h := (step_error_cut C F S).1 manifest path arch k8sVersion pre post b w w1 _ hb hpre
        (by rw [h1])
      rw [h1] at h
      refine ⟨h.1, fun hw => ⟨(h.2.2 hw).1, ?_⟩⟩
      rw [h.1]
      simpa [downloads_append, downloads] using before _ pre post b w w1 hn hw hpre
    · intro err s1 s3 hdir hex hdl
      have h1 : artifactLoop F S manifest.DownloadCommand [b] w1
          = (some (BatchError.download b.ID (F.GetCmd manifest.DownloadCommand b) err),
              ⟨s3, w1.trace ++ [Event.createBaseDir b, Event.isExist (F.Path b),
                Event.download b]⟩) := by
        simp [artifactLoop, hdir, fetchStep, hex, downloadStep_eq, hdl]
      have h := (step_error_cut C F S).1 manifest path arch k8sVersion pre post b w w1 _ hb hpre
        (by rw [h1])
      rw [h1] at h
      refine ⟨h.1, fun hw => ⟨(h.2.2 hw).1, ?_⟩⟩
      rw [h.1]
      simp [downloads_append, downloads, List.count_append,
        before _ pre post b w w1 hn hw hpre]
    · intro err ce s1 s3 hdir hex hchk hdl
      have h1 : artifactLoop F S manifest.DownloadCommand [b] w1
          = (some (BatchError.download b.ID (F.GetCmd manifest.DownloadCommand b) err),
              ⟨s3, w1.trace ++ [Event.createBaseDir b, Event.isExist (F.Path b),
                Event.sha256Check b, Event.rm (F.Path b), Event.download b]⟩) := by
        simp [artifactLoop, hdir, fetchStep, hex, hchk, downloadStep_eq, hdl]
      have h := (step_error_cut C F S).1 manifest path arch k8sVersion pre post b w w1 _ hb hpre
        (by rw [h1])
      rw [h1] at h
      refine ⟨h.1, fun hw => ⟨(h.2.2 hw).1, ?_⟩⟩
      rw [h.1]
      simp [downloads_append, downloads, List.count_append,
        before _ pre post b w w1 hn hw hpre]
  · intro kubeConf path version arch pipelineCache pre post b m1 w w1 hb hpre
    have hn := k8sBinaries_nodup C F path version arch
    rw [hb] at hn
    have hpreA := toA _ pre m1 w w1 hpre
    refine ⟨?_, ?_, ?_⟩
    · intro err s1 hdir
      have h1 : artifactLoop F S kubeConf.DownloadCommand [b] w1
          = (some (BatchError.createBaseDir b.FileName err),
              ⟨s1, w1.trace ++ [Event.createBaseDir b]⟩) := by
        simp [artifactLoop, hdir]
      have h := (step_error_cut C F S).2 kubeConf path version arch pipelineCache pre post b m1
        w w1 _ hb hpre (by rw [h1])
      rw [h1] at h
      refine ⟨h.1, fun hw => ⟨(h.2.2 hw).1, ?_, (h.2.2 hw).2.2⟩⟩
      rw [h.1]
      simpa [downloads_append, downloads] using before _ pre post b w w1 hn hw hpreA
    · intro err s1 s3 hdir hex hdl
      have h1 : artifactLoop F S kubeConf.DownloadCommand [b] w1
          = (some (BatchError.download b.ID (F.GetCmd kubeConf.DownloadCommand b) err),
              ⟨s3, w1.trace ++ [Event.createBaseDir b, Event.isExist (F.Path b),
                Event.download b]⟩) := by
        simp [artifactLoop, hdir, fetchStep, hex, downloadStep_eq, hdl]
      have h := (step_error_cut C F S).2 kubeConf path version arch pipelineCache pre post b m1
        w w1 _ hb hpre (by rw [h1])
      rw [h1] at h
      refine ⟨h.1, fun hw => ⟨(h.2.2 hw).1, ?_, (h.2.2 hw).2.2⟩⟩
      rw [h.1]
      simp [downloads_append, downloads, List.count_append,
        before _ pre post b w w1 hn hw hpreA]
    · intro err ce s1 s3 hdir hex hchk hdl
      have h1 : artifactLoop F S kubeConf.DownloadCommand [b] w1
          = (some (BatchError.download b.ID (F.GetCmd kubeConf.DownloadCommand b) err),
              ⟨s3, w1.trace ++ [Event.createBaseDir b, Event.isExist (F.Path b),
                Event.sha256Check b, Event.rm (F.Path b), Event.download b]⟩) := by
        simp [artifactLoop, hdir, fetchStep, hex, hchk, downloadStep_eq, hdl]
      have h := (step_error_cut C F S).2 kubeConf path version arch pipelineCache pre post b m1
        w w1 _ hb hpre (by rw [h1])
      rw [h1] at h
      refine ⟨h.1, fun hw => ⟨(h.2.2 hw).1, ?_, (h.2.2 hw).2.2⟩⟩
      rw [h.1]
      simp [downloads_append, downloads, List.count_append,
        before _ pre post b w w1 hn hw hpreA]

/-- C7 (unknown checksum tolerance), for both functions, on a system whose
integrity check is the one modelled from the spec: when the descriptors before
`b` were processed without error, the base directory of `b` is created, the
reference table has no entry for the identity of `b` and the file of `b`
exists, the call issues neither an `rm -f` nor a download for `b` and goes on
with the descriptors after `b`; in the whole call `b` is never downloaded. -/
theorem unknown_checksum_tolerance (C : Consts) (F : Files) (S : Sys σ)
    (FileSha256 : String → String → String → Option String)
    (sha256sum : String → σ → Except Err String) :
    (∀ (manifest : ArtifactManifest) (path arch k8sVersion : String)
        (pre post : List KubeBinary) (b : KubeBinary) (w w1 : World σ) (s1 : σ),
        artifactBinaries C F manifest path arch k8sVersion = pre ++ b :: post →
        artifactLoop F (S.withCheck F FileSha256 sha256sum) manifest.DownloadCommand pre w
          = (none, w1) →
        S.CreateBaseDir b w1.st = (none, s1) →
        FileSha256 b.ID b.Arch b.Version = none →
        S.IsExist (F.Path b) s1 = true →
        KubernetesArtifactBinariesDownload C F (S.withCheck F FileSha256 sha256sum) manifest path
              arch k8sVersion w
            = artifactLoop F (S.withCheck F FileSha256 sha256sum) manifest.DownloadCommand post
                ⟨s1, w1.trace ++ [Event.createBaseDir b, Event.isExist (F.Path b),
                  Event.sha256Check b]⟩
          ∧ (w.trace = [] →
              b ∉ downloads (KubernetesArtifactBinariesDownload C F
                (S.withCheck F FileSha256 sha256sum) manifest path arch k8sVersion w).2.trace))
      ∧ (∀ (kubeConf : KubeConf) (path version arch : String) (pipelineCache : Cache)
          (pre post : List KubeBinary) (b : KubeBinary) (m1 : BinariesMap) (w w1 : World σ)
          (s1 : σ),
          k8sBinaries C F path version arch = pre ++ b :: post →
          k8sLoop F (S.withCheck F FileSha256 sha256sum) kubeConf.DownloadCommand pre
            BinariesMap.empty w = (none, m1, w1) →
          S.CreateBaseDir b w1.st = (none, s1) →
          FileSha256 b.ID b.Arch b.Version = none →
          S.IsExist (F.Path b) s1 = true →
          K8sFilesDownloadHTTP C F (S.withCheck F FileSha256 sha256sum) kubeConf path version
                arch pipelineCache w
              = k8sFinish C F (S.withCheck F FileSha256 sha256sum) kubeConf path arch
                  pipelineCache
                  (k8sLoop F (S.withCheck F FileSha256 sha256sum) kubeConf.DownloadCommand post
                    (m1.set b.ID b)
                    ⟨s1, w1.trace ++ [Event.createBaseDir b, Event.isExist (F.Path b),
                      Event.sha256Check b]⟩)
            ∧ (w.trace = [] →
                b ∉ downloads (K8sFilesDownloadHTTP C F (S.withCheck F FileSha256 sha256sum)
                  kubeConf path version arch pipelineCache w).2.2.trace)) := by
  have skip : ∀ (g : DownloadCommand) (pre post : List KubeBinary) (b : KubeBinary)
      (w w1 : World σ) (s1 : σ), (pre ++ b :: post).Nodup → w.trace = [] →
      artifactLoop F (S.withCheck F FileSha256 sha256sum) g pre w = (none, w1) →
      b ∉ downloads (artifactLoop F (S.withCheck F FileSha256 sha256sum) g post
        ⟨s1, w1.trace ++ [Event.createBaseDir b, Event.isExist (F.Path b),
          Event.sha256Check b]⟩).2.trace := by
    intro g pre post b w w1 s1 hn hw hpre hmem
    have hb1 : b ∉ pre := fun h =>
      (List.nodup_append.1 hn).2.2 h (List.mem_cons_self _ _)
    have hb2 : b ∉ post := (List.nodup_cons.1 (List.nodup_append.1 hn).2.1).1
    rcases artifactLoop_downloads_mem F _ g post _ b hmem with h | h
    · simp only [downloads_append, downloads, List.append_nil] at h
      have h' : b ∈ downloads (artifactLoop F (S.withCheck F FileSha256 sha256sum) g pre
          w).2.trace := by rw [hpre]; exact h
      rcases artifactLoop_downloads_mem F _ g pre w b h' with h0 | h0
      · rw [hw] at h0; simp [downloads] at h0
      · exact hb1 h0
    · exact hb2 h
  constructor
  · intro manifest path arch k8sVersion pre post b w w1 s1 hb hpre hdir htab hex
    have hd : (S.withCheck F FileSha256 sha256sum).CreateBaseDir b w1.st = (none, s1) := hdir
    have hx : (S.withCheck F FileSha256 sha256sum).IsExist (F.Path b) s1 = true := hex
    have hc : (S.withCheck F FileSha256 sha256sum).SHA256Check b s1 = none := by
      simp [Sys.withCheck, SHA256Check, htab]
    have hmain : KubernetesArtifactBinariesDownload C F (S.withCheck F FileSha256 sha256sum)
          manifest path arch k8sVersion w
        = artifactLoop F (S.withCheck F FileSha256 sha256sum) manifest.DownloadCommand post
            ⟨s1, w1.trace ++ [Event.createBaseDir b, Event.isExist (F.Path b),
              Event.sha256Check b]⟩ := by
      unfold KubernetesArtifactBinariesDownload
      rw [hb, artifactLoop_split F _ _ pre (b :: post) w w1 hpre]
      simp [artifactLoop, hd, fetchStep, hx, hc]
    refine ⟨hmain, fun hw => ?_⟩
    rw [hmain]
    have hn := artifactBinaries_nodup C F manifest path arch k8sVersion
    rw [hb] at hn
    exact skip _ pre post b w w1 s1 hn hw hpre
  · intro kubeConf path version arch pipelineCache pre post b m1 w w1 s1 hb hpre hdir htab hex
    have hd : (S.withCheck F FileSha256 sha256sum).CreateBaseDir b w1.st = (none, s1) := hdir
    have hx : (S.withCheck F FileSha256 sha256sum).IsExist (F.Path b) s1 = true := hex
    have hc : (S.withCheck F FileSha256 sha256sum).SHA256Check b s1 = none := by
      simp [Sys.withCheck, SHA256Check, htab]
    have hmain : K8sFilesDownloadHTTP C F (S.withCheck F FileSha256 sha256sum) kubeConf path
          version arch pipelineCache w
        = k8sFinish C F (S.withCheck F FileSha256 sha256sum) kubeConf path arch pipelineCache
            (k8sLoop F (S.withCheck F FileSha256 sha256sum) kubeConf.DownloadCommand post
              (m1.set b.ID b)
              ⟨s1, w1.trace ++ [Event.createBaseDir b, Event.isExist (F.Path b),
                Event.sha256Check b]⟩) := by
      unfold K8sFilesDownloadHTTP
      rw [hb, k8sLoop_split F _ _ pre (b :: post) _ m1 w w1 hpre]
      simp [k8sLoop, hd, fetchStep, hx, hc]
    have hpreA : artifactLoop F (S.withCheck F FileSha256 sha256sum) kubeConf.DownloadCommand
        pre w = (none, w1) := by
      have hp := k8sLoop_eq F (S.withCheck F FileSha256 sha256sum) kubeConf.DownloadCommand pre
        BinariesMap.empty w
      rw [hpre] at hp
      simp only at hp
      rcases hr : artifactLoop F (S.withCheck F FileSha256 sha256sum) kubeConf.DownloadCommand
        pre w with ⟨r, w'⟩
      rw [hr] at hp
      simp only at hp
      rw [← hp.1, hp.2.1]
    refine ⟨hmain, fun hw => ?_⟩
    rw [hmain, k8sFinish_downloads, (k8sLoop_eq F _ _ _ _ _).2.1]
    have hn := k8sBinaries_nodup C F path version arch
    rw [hb] at hn
    exact skip _ pre post b w w1 s1 hn hw hpreA

/-- Where an error of the loop comes from. -/
theorem artifactLoop_error_origin (F : Files) (S : Sys σ) (g : DownloadCommand)
    (bs : List KubeBinary) (w : World σ) (e : BatchError)
    (h : (artifactLoop F S g bs w).1 = some e) :
    ∃ b ∈ bs,
      (∃ s err, (S.CreateBaseDir b s).1 = some err ∧ e = BatchError.createBaseDir b.FileName err)
      ∨ (∃ s err, (S.Download g b s).1 = some err
          ∧ e = BatchError.download b.ID (F.GetCmd g b) err) := by
  induction bs generalizing w with
  | nil => simp [artifactLoop] at h
  | cons b bs ih =>
    have happ := artifactLoop_append F S g [b] bs w
    simp only [List.singleton_append] at happ
    rw [happ] at h
    rcases hr : artifactLoop F S g [b] w with ⟨_ | e', w'⟩
    · rw [hr] at h
      obtain ⟨b', hb', hor⟩ := ih w' h
      exact ⟨b', List.mem_cons_of_mem _ hb', hor⟩
    · rw [hr] at h
      simp only [Option.some.injEq] at h
      subst h
      have h1 : (artifactLoop F S g [b] w).1 = some e' := by rw [hr]
      refine ⟨b, List.mem_cons_self _ _, ?_⟩
      rcases artifactLoop_single_error F S g b w e' h1 with
        ⟨err, hc, he, _⟩ | ⟨err, s2, _, hdl, he, _, _⟩
      · exact Or.inl ⟨w.st, err, hc, he⟩
      · exact Or.inr ⟨s2, err, hdl, he⟩

/-- C8 (fatal error content, as amended): an error returned by either function
is the directory-creation error of a descriptor of the batch, formatted with
its file name and wrapping the error `CreateBaseDir` returned, or the download
error of a descriptor of the batch, formatted with its id and its download
command and wrapping the error `Download` returned, or, for
`K8sFilesDownloadHTTP`, the helm2 error wrapping the error of the helm2
command. -/
theorem fatal_error_content (C : Consts) (F : Files) (S : Sys σ) :
    (∀ (manifest : ArtifactManifest) (path arch k8sVersion : String) (w : World σ)
        (e : BatchError),
        (KubernetesArtifactBinariesDownload C F S manifest path arch k8sVersion w).1 = some e →
        ∃ b ∈ artifactBinaries C F manifest path arch k8sVersion,
          (∃ s err, (S.CreateBaseDir b s).1 = some err
              ∧ e = BatchError.createBaseDir b.FileName err)
          ∨ (∃ s err, (S.Download manifest.DownloadCommand b s).1 = some err
              ∧ e = BatchError.download b.ID (F.GetCmd manifest.DownloadCommand b) err))
      ∧ (∀ (kubeConf : KubeConf) (path version arch : String) (pipelineCache : Cache)
          (w : World σ) (e : BatchError),
          (K8sFilesDownloadHTTP C F S kubeConf path version arch pipelineCache w).1 = some e →
          (∃ b ∈ k8sBinaries C F path version arch,
            (∃ s err, (S.CreateBaseDir b s).1 = some err
                ∧ e = BatchError.createBaseDir b.FileName err)
            ∨ (∃ s err, (S.Download kubeConf.DownloadCommand b s).1 = some err
                ∧ e = BatchError.download b.ID (F.GetCmd kubeConf.DownloadCommand b) err))
          ∨ (∃ s err, (S.sh (helm2Cmd C F kubeConf.DownloadCommand path arch) s).1 = some err
              ∧ e = BatchError.helm2 err)) := by
  constructor
  · intro manifest path arch k8sVersion w e h
    exact artifactLoop_error_origin F S _ _ w e h
  · intro kubeConf path version arch pipelineCache w e h
    have hk := k8sLoop_eq F S kubeConf.DownloadCommand (k8sBinaries C F path version arch)
      BinariesMap.empty w
    unfold K8sFilesDownloadHTTP k8sFinish at h
    rcases hl : k8sLoop F S kubeConf.DownloadCommand (k8sBinaries C F path version arch)
      BinariesMap.empty w with ⟨_ | e1, m, w1⟩
    · rw [hl] at h
      simp only at h
      right
      unfold legacyStep at h
      by_cases hv : kubeConf.KubeSphereVersion = "v2.1.1"
      · by_cases hx : S.IsExist (helm2Path C F path arch) w1.st = false
        · rcases hs : S.sh (helm2Cmd C F kubeConf.DownloadCommand path arch) w1.st
            with ⟨_ | err, s⟩
          · simp [hv, hx, hs] at h
          · refine ⟨w1.st, err, by simp [hs], ?_⟩
            simpa [hv, hx, hs] using h.symm
        · simp [hv, hx] at h
      · simp [hv] at h
    · rw [hl] at h hk
      simp only [Option.some.injEq] at h
      subst h
      left
      exact artifactLoop_error_origin F S _ _ w e1 hk.1.symm

end Descriptor

/-! ## Idempotence -/

section Idempotence

variable {σ : Type}

/-- Processing one descriptor on a stable machine settles it and keeps the
settled ones settled; it downloads at most that descriptor, and only if it was
not settled. -/
theorem stable_step (F : Files) (S : Sys σ) (g : DownloadCommand) (bs : List KubeBinary)
    (hS : Stable F S g bs) (b : KubeBinary) (hb : b ∈ bs) (done : List KubeBinary)
    (hdone : ∀ d ∈ done, d ∈ bs) (w wf : World σ) (hinv : Settled F S done w.st)
    (hstep : artifactLoop F S g [b] w = (none, wf)) :
    Settled F S (done ++ [b]) wf.st
      ∧ ∃ evs, wf.trace = w.trace ++ evs
          ∧ (downloads evs = [] ∨ (downloads evs = [b] ∧ b ∉ done)) := by
  simp only [artifactLoop] at hstep
  rcases hd : S.CreateBaseDir b w.st with ⟨_ | err, s1⟩
  swap
  · rw [hd] at hstep; simp at hstep
  rw [hd] at hstep
  simp only at hstep
  have hs1 : (S.CreateBaseDir b w.st).2 = s1 := by rw [hd]
  have hok : (S.CreateBaseDir b w.st).1 = none := by rw [hd]
  have hinv1 : Settled F S done s1 := fun d hd' => by
    rw [← hs1]
    exact ⟨hS.mkdir_valid d (hdone d hd') b hb _ (hinv d hd').1,
      hS.mkdir_dir d (hdone d hd') b hb _ (hinv d hd').2⟩
  have hdir1 : DirReady S b s1 := by rw [← hs1]; exact hS.dir_ready b hb _ hok
  have key : ∀ s2, Settled F S done s2 → DirReady S b s2 → b ∉ done →
      (S.Download g b s2).1 = none → Settled F S (done ++ [b]) (S.Download g b s2).2 := by
    intro s2 h2 hd2 hnot hdl d hd'
    rcases List.mem_append.1 hd' with hm | hm
    · have hne : d ≠ b := fun h => hnot (h ▸ hm)
      exact ⟨hS.download_frame d (hdone d hm) b hb hne _ (h2 d hm).1,
        hS.download_dir d (hdone d hm) b hb _ (h2 d hm).2⟩
    · have hdb : d = b := by simpa using hm
      subst hdb
      exact ⟨hS.download_valid d hb _ hdl, hS.download_dir d hb d hb _ hd2⟩
  unfold fetchStep at hstep
  by_cases hx : S.IsExist (F.Path b) s1 = true
  · rcases hc : S.SHA256Check b s1 with _ | ce
    · simp only [hx, hc, if_true, Prod.mk.injEq, true_and] at hstep
      subst hstep
      refine ⟨?_, [Event.createBaseDir b, Event.isExist (F.Path b), Event.sha256Check b],
        by simp, Or.inl (by simp [downloads])⟩
      intro d hd'
      rcases List.mem_append.1 hd' with hm | hm
      · exact hinv1 d hm
      · have hdb : d = b := by simpa using hm
        subst hdb
        exact ⟨⟨hx, hc⟩, hdir1⟩
    · have hnot : b ∉ done := fun hm => by
        have := (hinv1 b hm).1.2
        rw [hc] at this
        simp at this
      simp only [hx, hc, if_true, downloadStep_eq] at hstep
      rcases hdl : S.Download g b (S.sh ("rm -f " ++ F.Path b) s1).2 with ⟨_ | derr, s3⟩
      swap
      · rw [hdl] at hstep; simp at hstep
      rw [hdl] at hstep
      simp only [Option.map_none', Prod.mk.injEq, true_and] at hstep
      subst hstep
      have h2 : Settled F S done (S.sh ("rm -f " ++ F.Path b) s1).2 := fun d hm =>
        ⟨hS.rm_valid d (hdone d hm) b hb (fun h => hnot (h ▸ hm)) _ (hinv1 d hm).1,
          hS.rm_dir d (hdone d hm) b hb _ (hinv1 d hm).2⟩
      have h3 := key _ h2 (hS.rm_dir b hb b hb _ hdir1) hnot (by rw [hdl])
      rw [hdl] at h3
      refine ⟨h3, [Event.createBaseDir b, Event.isExist (F.Path b), Event.sha256Check b,
        Event.rm (F.Path b), Event.download b], by simp, Or.inr ⟨by simp [downloads], hnot⟩⟩
  · have hnot : b ∉ done := fun hm => hx (hinv1 b hm).1.1
    simp only [hx, downloadStep_eq] at hstep
    rcases hdl : S.Download g b s1 with ⟨_ | derr, s3⟩
    swap
    · rw [hdl] at hstep; simp at hstep
    rw [hdl] at hstep
    simp only [Bool.false_eq_true, if_false, Option.map_none', Prod.mk.injEq, true_and] at hstep
    subst hstep
    have h3 := key _ hinv1 hdir1 hnot (by rw [hdl])
    rw [hdl] at h3
    refine ⟨h3, [Event.createBaseDir b, Event.isExist (F.Path b), Event.download b], by simp,
      Or.inr ⟨by simp [downloads], hnot⟩⟩

/-- A successful run on a stable machine settles the whole batch and downloads
every descriptor at most once, the settled ones not at all. -/
theorem stable_run (F : Files) (S : Sys σ) (g : DownloadCommand) (bs : List KubeBinary)
    (hS : Stable F S g bs) :
    ∀ (l done : List KubeBinary) (w w' : World σ), (∀ b ∈ l, b ∈ bs) → (∀ b ∈ done, b ∈ bs) →
      Settled F S done w.st → artifactLoop F S g l w = (none, w') →
      Settled F S (done ++ l) w'.st
        ∧ ∃ evs, w'.trace = w.trace ++ evs
            ∧ (∀ b ∈ done, (downloads evs).count b = 0)
            ∧ (∀ b, (downloads evs).count b ≤ 1) := by
  intro l
  induction l with
  | nil =>
    intro done w w' _ _ hinv h
    simp only [artifactLoop, Prod.mk.injEq, true_and] at h
    subst h
    exact ⟨by simpa using hinv, [], by simp, by simp [downloads], by simp [downloads]⟩
  | cons b l ih =>
    intro done w w' hl hdone hinv h
    have hb : b ∈ bs := hl b (List.mem_cons_self _ _)
    have happ := artifactLoop_append F S g [b] l w
    simp only [List.singleton_append] at happ
    rw [happ] at h
    rcases hr : artifactLoop F S g [b] w with ⟨_ | e', wf⟩
    swap
    · rw [hr] at h; simp at h
    rw [hr] at h
    simp only at h
    obtain ⟨hset, evs0, ht0, hdl0⟩ := stable_step F S g bs hS b hb done hdone w wf hinv hr
    have hdone' : ∀ d ∈ done ++ [b], d ∈ bs := by
      intro d hd
      rcases List.mem_append.1 hd with hm | hm
      · exact hdone d hm
      · have hdb : d = b := by simpa using hm
        rw [hdb]; exact hb
    obtain ⟨hset', evs1, ht1, hz1, hle1⟩ := ih (done ++ [b]) wf w'
      (fun d hd => hl d (List.mem_cons_of_mem _ hd)) hdone' hset h
    refine ⟨by simpa using hset', evs0 ++ evs1, by rw [ht1, ht0, List.append_assoc], ?_, ?_⟩
    · intro d hd
      rw [downloads_append, List.count_append, hz1 d (List.mem_append_left _ hd)]
      rcases hdl0 with h0 | ⟨h0, hnot⟩
      · simp [h0]
      · have hne : b ≠ d := fun h => hnot (h ▸ hd)
        simp [h0, List.count_cons, hne]
    · intro d
      rw [downloads_append, List.count_append]
      rcases hdl0 with h0 | ⟨h0, _⟩
      · simpa [h0] using hle1 d
      · by_cases hdb : b = d
        · subst hdb
          have := hz1 b (List.mem_append_right _ (List.mem_singleton_self _))
          simp [h0, this]
        · simpa [h0, List.count_cons, hdb] using hle1 d

/-- On a machine where the whole batch is settled the loop succeeds with no
download and no removal; it only creates base directories, so it keeps what
directory creation keeps. -/
theorem settled_run (F : Files) (S : Sys σ) (g : DownloadCommand) (bs : List KubeBinary)
    (hS : Stable F S g bs) (P : σ → Prop)
    (hP : ∀ b ∈ bs, ∀ s, P s → P (S.CreateBaseDir b s).2) :
    ∀ (l : List KubeBinary) (w : World σ), (∀ b ∈ l, b ∈ bs) → Settled F S bs w.st → P w.st →
      ∃ w', artifactLoop F S g l w = (none, w') ∧ Settled F S bs w'.st ∧ P w'.st
        ∧ downloads w'.trace = downloads w.trace ∧ removals w'.trace = removals w.trace := by
  intro l
  induction l with
  | nil =>
    intro w _ hinv hp
    exact ⟨w, by simp [artifactLoop], hinv, hp, rfl, rfl⟩
  | cons b l ih =>
    intro w hl hinv hp
    have hb : b ∈ bs := hl b (List.mem_cons_self _ _)
    have hok : (S.CreateBaseDir b w.st).1 = none := (hinv b hb).2
    have hinv1 : Settled F S bs (S.CreateBaseDir b w.st).2 := fun d hd =>
      ⟨hS.mkdir_valid d hd b hb _ (hinv d hd).1, hS.mkdir_dir d hd b hb _ (hinv d hd).2⟩
    have hp1 : P (S.CreateBaseDir b w.st).2 := hP b hb _ hp
    rcases hd : S.CreateBaseDir b w.st with ⟨r, s1⟩
    rw [hd] at hok hinv1 hp1
    simp only at hok hinv1 hp1
    subst hok
    obtain ⟨w', hw', hset', hp', hdl', hrm'⟩ := ih
      ⟨s1, w.trace ++ [Event.createBaseDir b, Event.isExist (F.Path b), Event.sha256Check b]⟩
      (fun d hd => hl d (List.mem_cons_of_mem _ hd)) hinv1 hp1
    refine ⟨w', ?_, hset', hp', ?_, ?_⟩
    · simp only [artifactLoop, hd, fetchStep, (hinv1 b hb).1.1, (hinv1 b hb).1.2, if_true]
      simpa using hw'
    · simpa [downloads_append, downloads] using hdl'
    · simpa [removals_append, removals] using hrm'

/-- The state a successful helm2 step leaves: the state it started in, or the
state after the helm2 command ran without error. -/
theorem legacyStep_state (C : Consts) (F : Files) (S : Sys σ) (kubeConf : KubeConf)
    (path arch : String) (w w' : World σ)
    (h : legacyStep C F S kubeConf path arch w = (none, w')) :
    (w'.st = w.st
        ∧ (kubeConf.KubeSphereVersion = "v2.1.1" →
            S.IsExist (helm2Path C F path arch) w.st = true))
      ∨ (w'.st = (S.sh (helm2Cmd C F kubeConf.DownloadCommand path arch) w.st).2
          ∧ (S.sh (helm2Cmd C F kubeConf.DownloadCommand path arch) w.st).1 = none) := by
  unfold legacyStep at h
  by_cases hv : kubeConf.KubeSphereVersion = "v2.1.1"
  · by_cases hx : S.IsExist (helm2Path C F path arch) w.st = false
    · rcases hs : S.sh (helm2Cmd C F kubeConf.DownloadCommand path arch) w.st with ⟨_ | err, s⟩
      · right
        simp only [hv, hx, hs, if_true, Prod.mk.injEq, true_and] at h
        subst h
        simp
      · simp [hv, hx, hs] at h
    · left
      have hx' : S.IsExist (helm2Path C F path arch) w.st = true := by simpa using hx
      simp only [hv, hx', if_true, Bool.true_eq_false, if_false, Prod.mk.injEq, true_and] at h
      subst h
      exact ⟨rfl, fun _ => hx'⟩
  · left
    simp only [hv, if_false, Prod.mk.injEq, true_and] at h
    subst h
    exact ⟨rfl, fun h => absurd h hv⟩

/-- C2 (idempotence), for both functions, on a stable machine (a successful
download leaves a file that passes the check, and what is done for one
descriptor does not undo what was done for another): a second call made on the
state a successful first call left returns no error, invokes no download,
removes no file and, for `K8sFilesDownloadHTTP`, runs no helm2 command; over
the two calls every descriptor is downloaded at most once. -/
theorem idempotence (C : Consts) (F : Files) (S : Sys σ) :
    (∀ (manifest : ArtifactManifest) (path arch k8sVersion : String) (s : σ) (w1 : World σ),
        Stable F S manifest.DownloadCommand (artifactBinaries C F manifest path arch k8sVersion) →
        KubernetesArtifactBinariesDownload C F S manifest path arch k8sVersion (fresh s)
          = (none, w1) →
        ∃ w2, KubernetesArtifactBinariesDownload C F S manifest path arch k8sVersion
              (fresh w1.st) = (none, w2)
          ∧ downloads w2.trace = [] ∧ removals w2.trace = []
          ∧ ∀ b, (downloads (w1.trace ++ w2.trace)).count b ≤ 1)
      ∧ (∀ (kubeConf : KubeConf) (path version arch : String) (pipelineCache : Cache) (s : σ)
          (c1 : Cache) (w1 : World σ),
          Stable F S kubeConf.DownloadCommand (k8sBinaries C F path version arch) →
          LegacyStable F S (k8sBinaries C F path version arch) (helm2Path C F path arch)
            (helm2Cmd C F kubeConf.DownloadCommand path arch) →
          K8sFilesDownloadHTTP C F S kubeConf path version arch pipelineCache (fresh s)
            = (none, c1, w1) →
          ∃ c2 w2, K8sFilesDownloadHTTP C F S kubeConf path version arch c1 (fresh w1.st)
                = (none, c2, w2)
            ∧ downloads w2.trace = [] ∧ removals w2.trace = [] ∧ legacyRuns w2.trace = []
            ∧ ∀ b, (downloads (w1.trace ++ w2.trace)).count b ≤ 1) := by
  constructor
  · intro manifest path arch k8sVersion s w1 hS h1
    unfold KubernetesArtifactBinariesDownload at h1 ⊢
    obtain ⟨hset, evs, htr, _, hle⟩ := stable_run F S _ _ hS _ [] (fresh s) w1
      (fun b hb => hb) (by simp) (by intro b hb; simp at hb) h1
    simp only [List.nil_append, fresh] at hset htr
    obtain ⟨w2, hw2, _, _, hdl, hrm⟩ := settled_run F S _ _ hS (fun _ => True)
      (fun _ _ _ _ => trivial) _ (fresh w1.st) (fun b hb => hb) hset trivial
    simp only [fresh, downloads, removals] at hdl hrm
    refine ⟨w2, hw2, hdl, hrm, ?_⟩
    intro b
    rw [downloads_append, hdl, List.append_nil, htr]
    exact hle b
  · intro kubeConf path version arch pipelineCache s c1 w1 hS hL h1
    unfold K8sFilesDownloadHTTP k8sFinish at h1
    have hk := k8sLoop_eq F S kubeConf.DownloadCommand (k8sBinaries C F path version arch)
      BinariesMap.empty (fresh s)
    rcases hl : k8sLoop F S kubeConf.DownloadCommand (k8sBinaries C F path version arch)
      BinariesMap.empty (fresh s) with ⟨_ | e1, m, wL⟩
    swap
    · rw [hl] at h1; simp at h1
    rw [hl] at h1 hk
    simp only at h1 hk
    rcases hg : legacyStep C F S kubeConf path arch wL with ⟨_ | e2, wG⟩
    swap
    · rw [hg] at h1; simp at h1
    rw [hg] at h1
    simp only [Prod.mk.injEq, true_and] at h1
    obtain ⟨_, hw1⟩ := h1
    have hloop1 : artifactLoop F S kubeConf.DownloadCommand (k8sBinaries C F path version arch)
        (fresh s) = (none, wL) := by
      rcases hr : artifactLoop F S kubeConf.DownloadCommand (k8sBinaries C F path version arch)
        (fresh s) with ⟨r, w'⟩
      rw [hr] at hk
      simp only at hk
      rw [← hk.1, hk.2.1]
    obtain ⟨hset, evs, htr, _, hle⟩ := stable_run F S _ _ hS _ [] (fresh s) wL
      (fun b hb => hb) (by simp) (by intro b hb; simp at hb) hloop1
    simp only [List.nil_append, fresh] at hset htr
    have hdlG := (legacyStep_downloads C F S kubeConf path arch wL).1
    rw [hg] at hdlG
    simp only at hdlG
    -- the state the first call leaves
    have hst1 : w1.st = wG.st := by rw [← hw1]
    have hsetG : Settled F S (k8sBinaries C F path version arch) wG.st
        ∧ (kubeConf.KubeSphereVersion = "v2.1.1" →
            S.IsExist (helm2Path C F path arch) wG.st = true) := by
      rcases legacyStep_state C F S kubeConf path arch wL wG hg with ⟨hst, hex⟩ | ⟨hst, hok⟩
      · rw [hst]; exact ⟨hset, hex⟩
      · rw [hst]
        exact ⟨fun b hb => ⟨hL.run_valid b hb _ (hset b hb).1, hL.run_dir b hb _ (hset b hb).2⟩,
          fun _ => hL.run_exists _ hok⟩
    rw [← hst1] at hsetG
    obtain ⟨wL2, hwL2, _, hp2, hdl2, hrm2⟩ := settled_run F S _ _ hS
      (fun s => kubeConf.KubeSphereVersion = "v2.1.1" →
        S.IsExist (helm2Path C F path arch) s = true)
      (fun b hb s hp hv => hL.mkdir_exists b hb s (hp hv)) _ (fresh w1.st) (fun b hb => hb)
      hsetG.1 hsetG.2
    simp only [fresh, downloads, removals] at hdl2 hrm2
    have hq2 := (artifactLoop_quiet F S kubeConf.DownloadCommand
      (k8sBinaries C F path version arch) (fresh w1.st)).2
    rw [hwL2] at hq2
    simp only [fresh, legacyRuns] at hq2
    have hk2 := k8sLoop_eq F S kubeConf.DownloadCommand (k8sBinaries C F path version arch)
      BinariesMap.empty (fresh w1.st)
    rw [hwL2] at hk2
    simp only at hk2
    rcases hl2 : k8sLoop F S kubeConf.DownloadCommand (k8sBinaries C F path version arch)
      BinariesMap.empty (fresh w1.st) with ⟨r2, m2, wK2⟩
    rw [hl2] at hk2
    simp only at hk2
    obtain ⟨hr2, hwK2, _⟩ := hk2
    subst hr2 hwK2
    have hcount : ∀ b, (downloads (w1.trace ++ wK2.trace)).count b ≤ 1 := by
      intro b
      rw [downloads_append, hdl2, List.append_nil, ← hw1]
      simp only [downloads_append, downloads, List.append_nil]
      rw [hdlG, htr]
      exact hle b
    unfold K8sFilesDownloadHTTP k8sFinish
    rw [hl2]
    simp only
    by_cases hv : kubeConf.KubeSphereVersion = "v2.1.1"
    · have hex := hp2 hv
      refine ⟨c1.Set (cacheKey C arch) m2,
        ⟨wK2.st, (wK2.trace ++ [Event.isExist (helm2Path C F path arch)])
          ++ [Event.cacheSet (cacheKey C arch)]⟩, ?_, ?_⟩
      · simp only [legacyStep, hv, hex, if_true, Bool.true_eq_false, if_false]
      · refine ⟨?_, ?_, ?_, ?_⟩
        · simp [downloads_append, downloads, hdl2]
        · simp [removals_append, removals, hrm2]
        · simp [legacyRuns_append, legacyRuns, hq2]
        · intro b
          have := hcount b
          simpa [downloads_append, downloads] using this
    · refine ⟨c1.Set (cacheKey C arch) m2,
        ⟨wK2.st, wK2.trace ++ [Event.cacheSet (cacheKey C arch)]⟩, ?_, ?_⟩
      · simp only [legacyStep, hv, if_false]
      · refine ⟨?_, ?_, ?_, ?_⟩
        · simp [downloads_append, downloads, hdl2]
        · simp [removals_append, removals, hrm2]
        · simp [legacyRuns_append, legacyRuns, hq2]
        · intro b
          have := hcount b
          simpa [downloads_append, downloads] using this

end Idempotence

/-! ## The registry -/

section Registry

variable {σ : Type}

/-- C1 (atomic registry commit): whenever `K8sFilesDownloadHTTP` returns an
error, whatever its cause, the pipeline cache it leaves is the cache it was
given, and the call has made no cache write. -/
theorem K8sFilesDownloadHTTP_error_keeps_cache (C : Consts) (F : Files) (S : Sys σ)
    (kubeConf : KubeConf) (path version arch : String) (pipelineCache : Cache) (w : World σ)
    (e : BatchError)
    (h : (K8sFilesDownloadHTTP C F S kubeConf path version arch pipelineCache w).1 = some e) :
    (K8sFilesDownloadHTTP C F S kubeConf path version arch pipelineCache w).2.1 = pipelineCache
      ∧ cacheWrites (K8sFilesDownloadHTTP C F S kubeConf path version arch pipelineCache w).2.2.trace
          = cacheWrites w.trace := by
  have hk := k8sLoop_eq F S kubeConf.DownloadCommand (k8sBinaries C F path version arch)
    BinariesMap.empty w
  have hq := artifactLoop_quiet F S kubeConf.DownloadCommand (k8sBinaries C F path version arch) w
  rw [← hk.2.1] at hq
  unfold K8sFilesDownloadHTTP k8sFinish at h ⊢
  rcases hl : k8sLoop F S kubeConf.DownloadCommand (k8sBinaries C F path version arch)
    BinariesMap.empty w with ⟨_ | e1, m, w1⟩
  · rw [hl] at h hq
    simp only at h hq ⊢
    have hg := legacyStep_trace C F S kubeConf path arch w1
    rcases hs : legacyStep C F S kubeConf path arch w1 with ⟨_ | e2, w2⟩
    · rw [hs] at h
      simp at h
    · rw [hs] at hg
      simp only at hg ⊢
      exact ⟨trivial, hg.1.trans hq.1⟩
  · rw [hl] at hq
    simp only at hq ⊢
    exact ⟨trivial, hq.1⟩

/-- C6 (legacy compatibility fetch gating): the helm2 commands run by a call
of `K8sFilesDownloadHTTP` are the one command of lines 72-73 when the loop over
the descriptors returned no error, the KubeSphere version is exactly "v2.1.1"
and no file exists at `<helm base dir>/helm2` once the loop is done; in every
other case no helm2 command is run. -/
theorem K8sFilesDownloadHTTP_legacy_gating (C : Consts) (F : Files) (S : Sys σ)
    (kubeConf : KubeConf) (path version arch : String) (pipelineCache : Cache) (s : σ) :
    legacyRuns (K8sFilesDownloadHTTP C F S kubeConf path version arch pipelineCache
        (fresh s)).2.2.trace
      = if (k8sLoop F S kubeConf.DownloadCommand (k8sBinaries C F path version arch)
              BinariesMap.empty (fresh s)).1 = none
            ∧ kubeConf.KubeSphereVersion = "v2.1.1"
            ∧ S.IsExist ((NewKubeBinary F "helm" arch C.DefaultHelmVersion path).BaseDir ++ "/helm2")
                (k8sLoop F S kubeConf.DownloadCommand (k8sBinaries C F path version arch)
                  BinariesMap.empty (fresh s)).2.2.st = false
        then [helm2Cmd C F kubeConf.DownloadCommand path arch] else [] := by
  have hk := k8sLoop_eq F S kubeConf.DownloadCommand (k8sBinaries C F path version arch)
    BinariesMap.empty (fresh s)
  have hq := artifactLoop_quiet F S kubeConf.DownloadCommand (k8sBinaries C F path version arch)
    (fresh s)
  rw [← hk.2.1] at hq
  unfold K8sFilesDownloadHTTP k8sFinish
  rcases hl : k8sLoop F S kubeConf.DownloadCommand (k8sBinaries C F path version arch)
    BinariesMap.empty (fresh s) with ⟨_ | e1, m, w1⟩
  · rw [hl] at hq
    simp only at hq ⊢
    have hg := legacyStep_trace C F S kubeConf path arch w1
    have h0 : legacyRuns w1.trace = [] := by simpa [fresh, legacyRuns] using hq.2
    rw [h0] at hg
    rcases hs : legacyStep C F S kubeConf path arch w1 with ⟨_ | e2, w2⟩
    · rw [hs] at hg
      simp only at hg ⊢
      simp only [legacyRuns_append, legacyRuns, List.append_nil, hg.2, helm2Path, true_and,
        List.nil_append]
    · rw [hs] at hg
      simp only at hg ⊢
      simp only [hg.2, helm2Path, true_and, List.nil_append]
  · rw [hl] at hq
    simp only at hq ⊢
    have h0 : legacyRuns w1.trace = [] := by simpa [fresh, legacyRuns] using hq.2
    simp [h0]

/-- C9 (registry content on success): whenever `K8sFilesDownloadHTTP` returns
no error it has written the cache once, under the key
`common.KubeBinaries + "-" + arch`; every other key keeps its entry, and the
value under that key maps each of the eight ids to the descriptor built for it
with the requested architecture and its version, and no other id. -/
theorem K8sFilesDownloadHTTP_success_cache (C : Consts) (F : Files) (S : Sys σ)
    (kubeConf : KubeConf) (path version arch : String) (pipelineCache : Cache) (w : World σ)
    (h : (K8sFilesDownloadHTTP C F S kubeConf path version arch pipelineCache w).1 = none) :
    cacheWrites (K8sFilesDownloadHTTP C F S kubeConf path version arch pipelineCache w).2.2.trace
        = cacheWrites w.trace ++ [C.KubeBinaries ++ "-" ++ arch]
      ∧ (∀ k, k ≠ C.KubeBinaries ++ "-" ++ arch →
          (K8sFilesDownloadHTTP C F S kubeConf path version arch pipelineCache w).2.1 k
            = pipelineCache k)
      ∧ ∃ m : BinariesMap,
          (K8sFilesDownloadHTTP C F S kubeConf path version arch pipelineCache w).2.1
              (C.KubeBinaries ++ "-" ++ arch) = some m
          ∧ m "kubeadm" = some (NewKubeBinary F "kubeadm" arch version path)
          ∧ m "kubelet" = some (NewKubeBinary F "kubelet" arch version path)
          ∧ m "kubectl" = some (NewKubeBinary F "kubectl" arch version path)
          ∧ m "helm" = some (NewKubeBinary F "helm" arch C.DefaultHelmVersion path)
          ∧ m "kubecni" = some (NewKubeBinary F "kubecni" arch C.DefaultCniVersion path)
          ∧ m "docker" = some (NewKubeBinary F "docker" arch C.DefaultDockerVersion path)
          ∧ m "crictl" = some (NewKubeBinary F "crictl" arch C.DefaultCrictlVersion path)
          ∧ m "etcd" = some (NewKubeBinary F "etcd" arch C.DefaultEtcdVersion path)
          ∧ ∀ id, id ∉ ["kubeadm", "kubelet", "kubectl", "helm", "kubecni", "docker", "crictl",
              "etcd"] → m id = none := by
  have hk := k8sLoop_eq F S kubeConf.DownloadCommand (k8sBinaries C F path version arch)
    BinariesMap.empty w
  have hq := artifactLoop_quiet F S kubeConf.DownloadCommand (k8sBinaries C F path version arch) w
  rw [← hk.2.1] at hq
  rw [← hk.1] at hk
  unfold K8sFilesDownloadHTTP k8sFinish at h ⊢
  rcases hl : k8sLoop F S kubeConf.DownloadCommand (k8sBinaries C F path version arch)
    BinariesMap.empty w with ⟨_ | e1, m, w1⟩
  · rw [hl] at h hq hk
    simp only at h hq hk ⊢
    have hg := legacyStep_trace C F S kubeConf path arch w1
    rcases hs : legacyStep C F S kubeConf path arch w1 with ⟨_ | e2, w2⟩
    · rw [hs] at hg
      simp only at hg ⊢
      refine ⟨?_, ?_, fillMap (k8sBinaries C F path version arch) BinariesMap.empty, ?_, ?_⟩
      · simp [cacheWrites_append, cacheWrites, hg.1, hq.1, cacheKey]
      · intro k hk'
        simp [Cache.Set, cacheKey, hk']
      · simp [Cache.Set, cacheKey, hk.2.2 trivial]
      · simp [fillMap, k8sBinaries, BinariesMap.set, BinariesMap.empty, NewKubeBinary]
        intro id h1 h2 h3 h4 h5 h6 h7 h8
        simp [h1, h2, h3, h4, h5, h6, h7, h8]
    · rw [hs] at h
      simp at h
  · rw [hl] at h
    simp at h

end Registry

/-! ## The test double is a stable machine -/

/-- The path of an `rm -f` command is determined by the command. -/
theorem rm_cmd_inj (p q : String) (h : "rm -f " ++ p = "rm -f " ++ q) : p = q := by
  have h1 := congrArg String.data h
  simp only [String.data_append] at h1
  exact String.ext (List.append_cancel_left h1)

/-- On the test double a descriptor is valid when its file is intact. -/
theorem Fake.valid_iff (F : Files) (k : Fake) (b : KubeBinary) (d : Disk) :
    Valid F (k.sys F) b d ↔ d (F.Path b) = some true := by
  unfold Valid Fake.sys
  simp only
  constructor
  · rintro ⟨_, h2⟩
    by_contra hc
    simp [hc] at h2
  · intro h
    simp [h]

/-- On the test double a base directory can be created unless it is denied. -/
theorem Fake.dirReady_iff (F : Files) (k : Fake) (b : KubeBinary) (d : Disk) :
    DirReady (k.sys F) b d ↔ b.BaseDir ∉ k.denied := by
  unfold DirReady Fake.sys
  by_cases h : b.BaseDir ∈ k.denied <;> simp [h]

/-- On the test double creating a base directory leaves the disk as it is. -/
theorem Fake.createBaseDir_st (F : Files) (k : Fake) (b : KubeBinary) (d : Disk) :
    ((k.sys F).CreateBaseDir b d).2 = d := by
  unfold Fake.sys
  by_cases h : b.BaseDir ∈ k.denied <;> simp [h]

/-- What the shell of the test double does to the disk. -/
theorem Fake.sh_cases (k : Fake) (cmd : String) (d : Disk) :
    (k.sh cmd d).2 = d
      ∨ (∃ p, cmd = "rm -f " ++ p ∧ (k.sh cmd d).2 = d.write p none)
      ∨ (∃ p, (k.sh cmd d).2 = d.write p (some true)) := by
  unfold Fake.sh
  rcases hr : k.removable.find? (fun p => decide (cmd = "rm -f " ++ p)) with _ | p
  · rcases hc : k.commands.find? (fun c => decide (cmd = c.1)) with _ | c
    · left; simp [hc]
    · right; right; exact ⟨c.2, by simp [hc]⟩
  · right; left
    refine ⟨p, ?_, by simp⟩
    have := List.find?_some hr
    simpa using this

/-- The test double is stable for descriptors with pairwise distinct paths. -/
theorem Fake.stable (F : Files) (k : Fake) (g : DownloadCommand) (bs : List KubeBinary)
    (hpaths : ∀ b ∈ bs, ∀ b' ∈ bs, b ≠ b' → F.Path b ≠ F.Path b') :
    Stable F (k.sys F) g bs where
  download_valid := by
    intro b _ s h
    rw [Fake.valid_iff]
    unfold Fake.sys at h ⊢
    by_cases ho : b.ID ∈ k.offline
    · simp [ho] at h
    · simp [ho, Disk.write]
  dir_ready := by
    intro b _ s h
    rw [Fake.dirReady_iff]
    exact (Fake.dirReady_iff F k b s).1 h
  mkdir_valid := by
    intro b _ b' _ s h
    rw [Fake.createBaseDir_st]; exact h
  rm_valid := by
    intro b hb b' hb' hne s h
    rw [Fake.valid_iff] at h ⊢
    show (k.sh ("rm -f " ++ F.Path b') s).2 (F.Path b) = some true
    rcases Fake.sh_cases k ("rm -f " ++ F.Path b') s with h1 | ⟨p, hp, h1⟩ | ⟨p, h1⟩
    · rw [h1]; exact h
    · rw [h1]
      have : p = F.Path b' := (rm_cmd_inj _ _ hp).symm
      subst this
      simp [Disk.write, hpaths b hb b' hb' hne, h]
    · rw [h1]
      by_cases hq : F.Path b = p <;> simp [Disk.write, hq, h]
  download_frame := by
    intro b _ b' _ _ s h
    rw [Fake.valid_iff] at h ⊢
    unfold Fake.sys
    by_cases ho : b'.ID ∈ k.offline
    · simpa [ho] using h
    · by_cases hq : F.Path b = F.Path b' <;> simp [ho, Disk.write, hq, h]
  mkdir_dir := by
    intro b _ b' _ s h
    rw [Fake.dirReady_iff] at h ⊢; exact h
  rm_dir := by
    intro b _ b' _ s h
    rw [Fake.dirReady_iff] at h ⊢; exact h
  download_dir := by
    intro b _ b' _ s h
    rw [Fake.dirReady_iff] at h ⊢; exact h

/-- The test double is stable for a helm2 command that writes the helm2 file. -/
theorem Fake.legacyStable (F : Files) (k : Fake) (bs : List KubeBinary) (helm2 cmd : String)
    (hcmd : ∀ d, k.sh cmd d = (none, d.write helm2 (some true))) :
    LegacyStable F (k.sys F) bs helm2 cmd where
  run_exists := by
    intro s _
    show ((k.sh cmd s).2 helm2).isSome = true
    rw [hcmd]; simp [Disk.write]
  run_valid := by
    intro b _ s h
    rw [Fake.valid_iff] at h ⊢
    show (k.sh cmd s).2 (F.Path b) = some true
    rw [hcmd]
    by_cases hq : F.Path b = helm2 <;> simp [Disk.write, hq, h]
  run_dir := by
    intro b _ s h
    rw [Fake.dirReady_iff] at h ⊢; exact h
  mkdir_exists := by
    intro b _ s h
    rw [Fake.createBaseDir_st]; exact h

/-! ## Runs on the test double -/

/-- C1 on a run: the download of kubectl, the third descriptor, fails; the cache,
which held an entry for amd64, is returned as it was. -/
theorem K8sFilesDownloadHTTP_error_keeps_cache_witness :
    (K8sFilesDownloadHTTP demoConsts demoFiles (offlineFake.sys demoFiles) demoConf "/kk" "v1.21.5"
        "amd64" oldCache (fresh emptyDisk)).1
        = some (BatchError.download "kubectl"
            "curl -o /kk/kubectl/v1.21.5/amd64/kubectl https://dl/kubectl" "exit status 1")
      ∧ (K8sFilesDownloadHTTP demoConsts demoFiles (offlineFake.sys demoFiles) demoConf "/kk"
          "v1.21.5" "amd64" oldCache (fresh emptyDisk)).2.1 = oldCache
      ∧ cacheWrites (K8sFilesDownloadHTTP demoConsts demoFiles (offlineFake.sys demoFiles) demoConf
          "/kk" "v1.21.5" "amd64" oldCache (fresh emptyDisk)).2.2.trace = cacheWrites [] :=
  ⟨by decide,
    K8sFilesDownloadHTTP_error_keeps_cache demoConsts demoFiles (offlineFake.sys demoFiles) demoConf
      "/kk" "v1.21.5" "amd64" oldCache (fresh emptyDisk)
      (BatchError.download "kubectl"
        "curl -o /kk/kubectl/v1.21.5/amd64/kubectl https://dl/kubectl" "exit status 1")
      (by decide)⟩

/-- C9 on a run: starting from the empty disk the call succeeds and writes the cache
once, under `KubeBinaries-amd64`. -/
theorem K8sFilesDownloadHTTP_success_cache_witness :
    (K8sFilesDownloadHTTP demoConsts demoFiles (demoFake.sys demoFiles) demoConf "/kk" "v1.21.5"
        "amd64" oldCache (fresh emptyDisk)).1 = none
      ∧ cacheWrites (K8sFilesDownloadHTTP demoConsts demoFiles (demoFake.sys demoFiles) demoConf
          "/kk" "v1.21.5" "amd64" oldCache (fresh emptyDisk)).2.2.trace = ["KubeBinaries-amd64"] :=
  ⟨by decide,
    (K8sFilesDownloadHTTP_success_cache demoConsts demoFiles (demoFake.sys demoFiles) demoConf
      "/kk" "v1.21.5" "amd64" oldCache (fresh emptyDisk) (by decide)).1⟩

/-- C10 on a run: the call succeeds on the empty disk and attempts the base
directories of its whole batch, in order. -/
theorem artifactBinaries_composition_witness :
    (KubernetesArtifactBinariesDownload demoConsts demoFiles (demoFake.sys demoFiles) demoManifest
        "/kk" "amd64" "v1.21.5" (fresh emptyDisk)).1 = none
      ∧ processed (KubernetesArtifactBinariesDownload demoConsts demoFiles (demoFake.sys demoFiles)
          demoManifest "/kk" "amd64" "v1.21.5" (fresh emptyDisk)).2.trace
        = artifactBinaries demoConsts demoFiles demoManifest "/kk" "amd64" "v1.21.5" :=
  ⟨by decide,
    (artifactBinaries_composition demoConsts demoFiles (demoFake.sys demoFiles) demoManifest
      "/kk" "amd64" "v1.21.5" emptyDisk).2.2.2 (by decide)⟩

/-- C3 on two runs: the helm file on disk is damaged; it is removed and helm is
downloaded once. -/
theorem corruption_recovery_witness :
    removals (KubernetesArtifactBinariesDownload demoConsts demoFiles (legacyFake.sys demoFiles)
        demoManifest "/kk" "amd64" "v1.21.5" (fresh damagedDisk)).2.trace
        = ["/kk/helm/v3.6.3/amd64/helm"]
      ∧ (downloads (K8sFilesDownloadHTTP demoConsts demoFiles (legacyFake.sys demoFiles) demoConf
          "/kk" "v1.21.5" "amd64" oldCache (fresh damagedDisk)).2.2.trace).count demoHelm = 1 := by
  constructor
  · rw [((corruption_recovery demoConsts demoFiles (legacyFake.sys demoFiles)).1 demoManifest "/kk"
      "amd64" "v1.21.5" demoPre demoPostArtifact demoHelm (fresh damagedDisk)
      (artifactLoop demoFiles (legacyFake.sys demoFiles) demoCmd demoPre (fresh damagedDisk)).2
      (artifactLoop demoFiles (legacyFake.sys demoFiles) demoCmd demoPre (fresh damagedDisk)).2.st
      "SHA256 no match" (by decide) (Prod.ext (by decide) rfl) rfl (by decide) (by decide)).1]
    decide
  · exact ((corruption_recovery demoConsts demoFiles (legacyFake.sys demoFiles)).2 demoConf "/kk"
      "v1.21.5" "amd64" oldCache demoPre demoPostK8s demoHelm
      (k8sLoop demoFiles (legacyFake.sys demoFiles) demoCmd demoPre BinariesMap.empty
        (fresh damagedDisk)).2.1 (fresh damagedDisk)
      (k8sLoop demoFiles (legacyFake.sys demoFiles) demoCmd demoPre BinariesMap.empty
        (fresh damagedDisk)).2.2
      (k8sLoop demoFiles (legacyFake.sys demoFiles) demoCmd demoPre BinariesMap.empty
        (fresh damagedDisk)).2.2.st
      "SHA256 no match" (by decide) (Prod.ext (by decide) rfl) rfl (by decide) (by decide)).2 rfl

/-- C5 on four runs: the base directory of kubeadm, the first descriptor, cannot
be created (both functions); the download of kubectl, whose file is missing,
fails; the download of helm fails after its damaged file was removed.  Each
call stops at the failing descriptor. -/
theorem fail_fast_witness :
    KubernetesArtifactBinariesDownload demoConsts demoFiles (deniedFake.sys demoFiles)
        demoManifest "/kk" "amd64" "v1.21.5" (fresh emptyDisk)
        = (some (BatchError.createBaseDir "kubeadm" "permission denied"),
            ⟨emptyDisk, [Event.createBaseDir demoKubeadm]⟩)
      ∧ (processed (K8sFilesDownloadHTTP demoConsts demoFiles (deniedFake.sys demoFiles) demoConf
            "/kk" "v1.21.5" "amd64" oldCache (fresh emptyDisk)).2.2.trace = [] ++ [demoKubeadm]
          ∧ (downloads (K8sFilesDownloadHTTP demoConsts demoFiles (deniedFake.sys demoFiles)
            demoConf "/kk" "v1.21.5" "amd64" oldCache (fresh emptyDisk)).2.2.trace).count
              demoKubeadm = 0
          ∧ legacyRuns (K8sFilesDownloadHTTP demoConsts demoFiles (deniedFake.sys demoFiles)
            demoConf "/kk" "v1.21.5" "amd64" oldCache (fresh emptyDisk)).2.2.trace = [])
      ∧ (K8sFilesDownloadHTTP demoConsts demoFiles (offlineFake.sys demoFiles) demoConf "/kk"
            "v1.21.5" "amd64" oldCache (fresh emptyDisk)).1 = some kubectlError
      ∧ downloads (K8sFilesDownloadHTTP demoConsts demoFiles (offlineFake.sys demoFiles) demoConf
            "/kk" "v1.21.5" "amd64" oldCache (fresh emptyDisk)).2.2.trace = demoPre
      ∧ (KubernetesArtifactBinariesDownload demoConsts demoFiles (brokenFake.sys demoFiles)
            demoManifest "/kk" "amd64" "v1.21.5" (fresh damagedDisk)).1 = some helmError
      ∧ removals (KubernetesArtifactBinariesDownload demoConsts demoFiles
            (brokenFake.sys demoFiles) demoManifest "/kk" "amd64" "v1.21.5"
            (fresh damagedDisk)).2.trace = ["/kk/helm/v3.6.3/amd64/helm"] := by
  have hdirA := (((fail_fast demoConsts demoFiles (deniedFake.sys demoFiles)).1 demoManifest "/kk"
    "amd64" "v1.21.5" [] (demoKubelet :: demoKubectl :: demoHelm :: demoPostArtifact) demoKubeadm
    (fresh emptyDisk) (fresh emptyDisk) (by decide) rfl).1 "permission denied" emptyDisk rfl).1
  have hdirK := (((fail_fast demoConsts demoFiles (deniedFake.sys demoFiles)).2 demoConf "/kk"
    "v1.21.5" "amd64" oldCache [] (demoKubelet :: demoKubectl :: demoHelm :: demoPostK8s)
    demoKubeadm BinariesMap.empty (fresh emptyDisk) (fresh emptyDisk) (by decide) rfl).1
    "permission denied" emptyDisk rfl).2 rfl
  have hmiss := (((fail_fast demoConsts demoFiles (offlineFake.sys demoFiles)).2 demoConf "/kk"
    "v1.21.5" "amd64" oldCache demoTwo (demoHelm :: demoPostK8s) demoKubectl
    (k8sLoop demoFiles (offlineFake.sys demoFiles) demoCmd demoTwo BinariesMap.empty
      (fresh emptyDisk)).2.1 (fresh emptyDisk)
    (k8sLoop demoFiles (offlineFake.sys demoFiles) demoCmd demoTwo BinariesMap.empty
      (fresh emptyDisk)).2.2 (by decide) (Prod.ext (by decide) rfl)).2.1 "exit status 1"
    (k8sLoop demoFiles (offlineFake.sys demoFiles) demoCmd demoTwo BinariesMap.empty
      (fresh emptyDisk)).2.2.st
    (k8sLoop demoFiles (offlineFake.sys demoFiles) demoCmd demoTwo BinariesMap.empty
      (fresh emptyDisk)).2.2.st rfl (by decide) rfl).1
  have hrm := (((fail_fast demoConsts demoFiles (brokenFake.sys demoFiles)).1 demoManifest "/kk"
    "amd64" "v1.21.5" demoPre demoPostArtifact demoHelm (fresh damagedDisk)
    (artifactLoop demoFiles (brokenFake.sys demoFiles) demoCmd demoPre (fresh damagedDisk)).2
    (by decide) (Prod.ext (by decide) rfl)).2.2 "exit status 1" "SHA256 no match"
    (artifactLoop demoFiles (brokenFake.sys demoFiles) demoCmd demoPre (fresh damagedDisk)).2.st
    ((brokenFake.sys demoFiles).sh ("rm -f " ++ demoFiles.Path demoHelm)
      (artifactLoop demoFiles (brokenFake.sys demoFiles) demoCmd demoPre
        (fresh damagedDisk)).2.st).2
    rfl (by decide) (by decide) rfl).1
  refine ⟨hdirA, hdirK, ?_, ?_, ?_, ?_⟩
  · rw [hmiss]; decide
  · rw [hmiss]; decide
  · rw [hrm]; decide
  · rw [hrm]; decide

/-- C7 on two runs: the reference table has no entry for helm and a helm file is
on disk; nothing is removed and helm is not downloaded. -/
theorem unknown_checksum_tolerance_witness :
    removals (KubernetesArtifactBinariesDownload demoConsts demoFiles
        ((demoFake.sys demoFiles).withCheck demoFiles demoTable demoSum)
        demoManifest "/kk" "amd64" "v1.21.5" (fresh damagedDisk)).2.trace = []
      ∧ demoHelm ∉ downloads (K8sFilesDownloadHTTP demoConsts demoFiles
          ((demoFake.sys demoFiles).withCheck demoFiles demoTable demoSum) demoConf
          "/kk" "v1.21.5" "amd64" oldCache (fresh damagedDisk)).2.2.trace := by
  constructor
  · rw [((unknown_checksum_tolerance demoConsts demoFiles (demoFake.sys demoFiles) demoTable
      demoSum).1 demoManifest "/kk" "amd64" "v1.21.5" demoPre demoPostArtifact demoHelm
      (fresh damagedDisk)
      (artifactLoop demoFiles ((demoFake.sys demoFiles).withCheck demoFiles demoTable demoSum)
        demoCmd demoPre (fresh damagedDisk)).2
      (artifactLoop demoFiles ((demoFake.sys demoFiles).withCheck demoFiles demoTable demoSum)
        demoCmd demoPre (fresh damagedDisk)).2.st
      (by decide) (Prod.ext (by decide) rfl) rfl (by decide) (by decide)).1]
    decide
  · exact ((unknown_checksum_tolerance demoConsts demoFiles (demoFake.sys demoFiles) demoTable
      demoSum).2 demoConf "/kk" "v1.21.5" "amd64" oldCache demoPre demoPostK8s demoHelm
      (k8sLoop demoFiles ((demoFake.sys demoFiles).withCheck demoFiles demoTable demoSum)
        demoCmd demoPre BinariesMap.empty (fresh damagedDisk)).2.1
      (fresh damagedDisk)
      (k8sLoop demoFiles ((demoFake.sys demoFiles).withCheck demoFiles demoTable demoSum)
        demoCmd demoPre BinariesMap.empty (fresh damagedDisk)).2.2
      (k8sLoop demoFiles ((demoFake.sys demoFiles).withCheck demoFiles demoTable demoSum)
        demoCmd demoPre BinariesMap.empty (fresh damagedDisk)).2.2.st
      (by decide) (Prod.ext (by decide) rfl) rfl (by decide) (by decide)).2 rfl

/-- C8 (as amended) on two runs: the failed download of kubectl and the failed
creation of the base directory of kubeadm. -/
theorem fatal_error_content_witness :
    (∃ b ∈ artifactBinaries demoConsts demoFiles demoManifest "/kk" "amd64" "v1.21.5",
        (∃ s err, ((offlineFake.sys demoFiles).CreateBaseDir b s).1 = some err
            ∧ kubectlError = BatchError.createBaseDir b.FileName err)
        ∨ (∃ s err, ((offlineFake.sys demoFiles).Download demoManifest.DownloadCommand b s).1
              = some err
            ∧ kubectlError
              = BatchError.download b.ID (demoFiles.GetCmd demoManifest.DownloadCommand b) err))
      ∧ ((∃ b ∈ k8sBinaries demoConsts demoFiles "/kk" "v1.21.5" "amd64",
          (∃ s err, ((deniedFake.sys demoFiles).CreateBaseDir b s).1 = some err
              ∧ BatchError.createBaseDir "kubeadm" "permission denied"
                = BatchError.createBaseDir b.FileName err)
          ∨ (∃ s err, ((deniedFake.sys demoFiles).Download demoConf.DownloadCommand b s).1
                = some err
              ∧ BatchError.createBaseDir "kubeadm" "permission denied"
                = BatchError.download b.ID (demoFiles.GetCmd demoConf.DownloadCommand b) err))
        ∨ (∃ s err, ((deniedFake.sys demoFiles).sh
              (helm2Cmd demoConsts demoFiles demoConf.DownloadCommand "/kk" "amd64") s).1 = some err
            ∧ BatchError.createBaseDir "kubeadm" "permission denied" = BatchError.helm2 err)) :=
  ⟨(fatal_error_content demoConsts demoFiles (offlineFake.sys demoFiles)).1 demoManifest "/kk"
      "amd64" "v1.21.5" (fresh emptyDisk) kubectlError (by decide),
    (fatal_error_content demoConsts demoFiles (deniedFake.sys demoFiles)).2 demoConf "/kk"
      "v1.21.5" "amd64" oldCache (fresh emptyDisk)
      (BatchError.createBaseDir "kubeadm" "permission denied") (by decide)⟩

/-- C8 as stated fails: two calls that differ only in the version of the failing
descriptor return the same error, for the creation of the base directory of
kubeadm and for the download of kubectl alike; the version is not among the
values either error is formatted with. -/
theorem fatal_error_lacks_version :
    (K8sFilesDownloadHTTP demoConsts demoFiles (deniedFake.sys demoFiles) demoConf "/kk" "v1.21.5"
        "amd64" oldCache (fresh emptyDisk)).1
        = some (BatchError.createBaseDir "kubeadm" "permission denied")
      ∧ (K8sFilesDownloadHTTP demoConsts demoFiles (deniedFake.sys demoFiles) demoConf "/kk"
          "v1.22.1" "amd64" oldCache (fresh emptyDisk)).1
        = some (BatchError.createBaseDir "kubeadm" "permission denied")
      ∧ ¬ Surfaces (BatchError.createBaseDir "kubeadm" "permission denied")
          (NewKubeBinary demoFiles "kubeadm" "amd64" "v1.21.5" "/kk") "permission denied"
      ∧ (K8sFilesDownloadHTTP demoConsts demoFiles (offlineFake.sys demoFiles) fixedConf "/kk"
          "v1.21.5" "amd64" oldCache (fresh emptyDisk)).1
        = some (BatchError.download "kubectl" "fetch" "exit status 1")
      ∧ (K8sFilesDownloadHTTP demoConsts demoFiles (offlineFake.sys demoFiles) fixedConf "/kk"
          "v1.22.1" "amd64" oldCache (fresh emptyDisk)).1
        = some (BatchError.download "kubectl" "fetch" "exit status 1")
      ∧ ¬ Surfaces (BatchError.download "kubectl" "fetch" "exit status 1") demoKubectl
          "exit status 1" := by
  refine ⟨by decide, by decide, ?_, by decide, by decide, ?_⟩
  · unfold Surfaces; decide
  · unfold Surfaces; decide

/-- C2 on two pairs of runs: the first call repairs the damaged helm file and
downloads the rest (and helm2 for KubeSphere v2.1.1); the second call, on the
disk the first one left, downloads and removes nothing. -/
theorem idempotence_witness :
    (∃ w2, KubernetesArtifactBinariesDownload demoConsts demoFiles (legacyFake.sys demoFiles)
          demoManifest "/kk" "amd64" "v1.21.5"
          (fresh (KubernetesArtifactBinariesDownload demoConsts demoFiles
            (legacyFake.sys demoFiles) demoManifest "/kk" "amd64" "v1.21.5"
            (fresh damagedDisk)).2.st) = (none, w2)
        ∧ downloads w2.trace = [] ∧ removals w2.trace = []
        ∧ ∀ b, (downloads ((KubernetesArtifactBinariesDownload demoConsts demoFiles
            (legacyFake.sys demoFiles) demoManifest "/kk" "amd64" "v1.21.5"
            (fresh damagedDisk)).2.trace ++ w2.trace)).count b ≤ 1)
      ∧ (∃ c2 w2, K8sFilesDownloadHTTP demoConsts demoFiles (legacyFake.sys demoFiles) legacyConf
            "/kk" "v1.21.5" "amd64"
            (K8sFilesDownloadHTTP demoConsts demoFiles (legacyFake.sys demoFiles) legacyConf "/kk"
              "v1.21.5" "amd64" oldCache (fresh damagedDisk)).2.1
            (fresh (K8sFilesDownloadHTTP demoConsts demoFiles (legacyFake.sys demoFiles) legacyConf
              "/kk" "v1.21.5" "amd64" oldCache (fresh damagedDisk)).2.2.st) = (none, c2, w2)
          ∧ downloads w2.trace = [] ∧ removals w2.trace = [] ∧ legacyRuns w2.trace = []
          ∧ ∀ b, (downloads ((K8sFilesDownloadHTTP demoConsts demoFiles (legacyFake.sys demoFiles)
              legacyConf "/kk" "v1.21.5" "amd64" oldCache (fresh damagedDisk)).2.2.trace
              ++ w2.trace)).count b ≤ 1) :=
  ⟨(idempotence demoConsts demoFiles (legacyFake.sys demoFiles)).1 demoManifest "/kk" "amd64"
      "v1.21.5" damagedDisk _
      (Fake.stable demoFiles legacyFake _ _ (by decide))
      (Prod.ext (by decide) rfl),
    (idempotence demoConsts demoFiles (legacyFake.sys demoFiles)).2 legacyConf "/kk" "v1.21.5"
      "amd64" oldCache damagedDisk _ _
      (Fake.stable demoFiles legacyFake _ _ (by decide))
      (Fake.legacyStable demoFiles legacyFake _ _ _ (fun _ => rfl))
      (Prod.ext (by decide) rfl)⟩

end Kubekey
